import Mathlib

/-!
Shallow embedding of WiredTiger's rollback-to-stable (RTS) subsystem,
`src/third_party/wiredtiger/src/txn/txn_rollback_to_stable.c`, together with
theorems about its behaviour.  Timestamps and transaction ids are modelled as
`Nat` (the C code uses `uint64_t`; none of the modelled operations performs
arithmetic that can overflow, they only compare, copy and zero these fields,
so `Nat` is a faithful carrier).  Update chains are modelled as Lean lists
(the C code walks a singly linked list via `upd->next`), and the in-place
mutations of the C code become list transformations.
-/

namespace RTS

/-- Timestamp sentinel `WT_TS_NONE` (0 denotes "none"). -/
def WT_TS_NONE : Nat := 0

/-- Timestamp sentinel `WT_TS_MAX` (`UINT64_MAX`). -/
def WT_TS_MAX : Nat := 18446744073709551615

/-- Transaction-id sentinel `WT_TXN_NONE`. -/
def WT_TXN_NONE : Nat := 0

/-- Transaction-id sentinel `WT_TXN_ABORTED` (`UINT64_MAX`). -/
def WT_TXN_ABORTED : Nat := 18446744073709551615

/-- Update types (`WT_UPDATE_STANDARD`, `WT_UPDATE_MODIFY`, `WT_UPDATE_TOMBSTONE`). -/
inductive UpdateType where
  | standard
  | modify
  | tombstone
deriving DecidableEq

/-- Prepare states; the code only ever tests for `WT_PREPARE_INPROGRESS`. -/
inductive PrepareState where
  | init
  | inprogress
  | locked
  | resolved
deriving DecidableEq

/-- The `WT_UPDATE` flags RTS reads or writes: `WT_UPDATE_HS`,
`WT_UPDATE_RESTORED_FROM_HS`, `WT_UPDATE_RESTORED_FROM_DS`. -/
structure UpdateFlags where
  hs : Bool := false
  restoredFromHs : Bool := false
  restoredFromDs : Bool := false
deriving DecidableEq

/-- An in-memory `WT_UPDATE` record.  `value` is an abstract payload
identifier; RTS never inspects payload bytes except through the external
modify-apply collaborator. -/
structure Update where
  type : UpdateType
  value : Nat
  txnid : Nat
  start_ts : Nat
  durable_ts : Nat
  prepare_state : PrepareState
  flags : UpdateFlags
deriving DecidableEq

/-- A history-store entry as seen by `__rollback_delete_hs`, which only reads
the key components `(start_ts, counter)` of entries for one `(btree_id, key)`
pair. -/
structure HsDelEntry where
  start_ts : Nat
  counter : Nat
deriving DecidableEq

/-- The abort assignment of `__rollback_abort_update`:
`upd->txnid = WT_TXN_ABORTED; upd->durable_ts = upd->start_ts = WT_TS_NONE;`. -/
def abortUpd (u : Update) : Update :=
  { u with txnid := WT_TXN_ABORTED, durable_ts := WT_TS_NONE, start_ts := WT_TS_NONE }

/-- Clearing the history-store flag: `F_CLR(upd, WT_UPDATE_HS)`. -/
def clearHS (u : Update) : Update :=
  { u with flags := { u.flags with hs := false } }

/-- An update is "stable" for the walk of `__rollback_abort_update` when it is
not aborted and satisfies neither abort condition
(`rollback_timestamp < upd->durable_ts || upd->prepare_state == WT_PREPARE_INPROGRESS`). -/
def updStable (ts : Nat) (u : Update) : Bool :=
  !decide (u.txnid = WT_TXN_ABORTED) && decide (u.durable_ts ≤ ts) &&
    !decide (u.prepare_state = PrepareState.inprogress)

/-- First phase of `__rollback_abort_update` (the `for` loop at lines 86-107):
walk the chain from the head, keep already-aborted updates, abort unstable
ones, and stop at the first stable update.  Returns the processed prefix and,
when a stable update was reached, that update together with the untouched tail
of the chain. -/
def abortScan (ts : Nat) : List Update → List Update × Option (Update × List Update)
  | [] => ([], none)
  | u :: rest =>
    if u.txnid = WT_TXN_ABORTED then
      let r := abortScan ts rest
      (u :: r.1, r.2)
    else if ts < u.durable_ts ∨ u.prepare_state = PrepareState.inprogress then
      let r := abortScan ts rest
      (abortUpd u :: r.1, r.2)
    else
      ([], some (u, rest))

/-- The scan at lines 120-128: find the first non-aborted update following a
stable tombstone. -/
def findFirstNonAborted : List Update → Option Update
  | [] => none
  | v :: vs => if v.txnid = WT_TXN_ABORTED then findFirstNonAborted vs else v

/-- Clear the HS flag on the first non-aborted update of a list (the update
the pointer `stable_upd` is advanced to at lines 120-128 and cleared at
line 145); updates before it are aborted and left untouched. -/
def clearHSFirstNonAborted : List Update → List Update
  | [] => []
  | v :: vs =>
    if v.txnid = WT_TXN_ABORTED then v :: clearHSFirstNonAborted vs
    else clearHS v :: vs

/-- `__rollback_delete_hs`: scan the history-store entries of one key in
descending `(start_ts, counter)` order (the cursor is positioned at the
largest key and moved by `prev`), removing entries until the first entry with
`hs_start_ts < ts` (exclusive), at which point the loop breaks. -/
def rollbackDeleteHs (ts : Nat) : List HsDelEntry → List HsDelEntry
  | [] => []
  | e :: rest => if e.start_ts < ts then e :: rest else rollbackDeleteHs ts rest

/-- Result of `__rollback_abort_update`: the rewritten update chain, the
surviving history-store entries for the key, and the `stable_update_found`
output flag. -/
structure AbortUpdateResult where
  chain : List Update
  hs : List HsDelEntry
  stableUpdateFound : Bool
deriving DecidableEq

/-- `__rollback_abort_update` (lines 76-154): abort unstable updates from the
head of the chain; if a stable update was found and carries the HS flag,
delete the history-store entries from the stable anchor upwards and clear the
HS flag on the stable update (and on the stable tombstone in front of it). -/
def rollbackAbortUpdate (ts : Nat) (chain : List Update) (hs : List HsDelEntry) :
    AbortUpdateResult :=
  match abortScan ts chain with
  | (pre, none) => ⟨pre, hs, false⟩
  | (pre, some (st, rest)) =>
    if st.flags.hs then
      if st.type = UpdateType.tombstone then
        let anchorTs :=
          match findFirstNonAborted rest with
          | some v => v.start_ts
          | none => st.start_ts
        ⟨pre ++ clearHS st :: clearHSFirstNonAborted rest, rollbackDeleteHs anchorTs hs, true⟩
      else
        ⟨pre ++ clearHS st :: rest, rollbackDeleteHs st.start_ts hs, true⟩
    else
      ⟨pre ++ st :: rest, hs, true⟩

/-- The recovered-checkpoint snapshot state the visibility oracle consults
(`WT_CONNECTION_IMPL` fields `recovery_ckpt_snap_min/max/snapshot` and the
`WT_CONN_RECOVERING` flag). -/
structure ConnSnapshot where
  recovering : Bool
  snapMin : Nat
  snapMax : Nat
  snapshotIds : List Nat
deriving DecidableEq

/-- Modelled from the spec: `__wt_txn_visible_id_snapshot` is not under the
provided sources; per the spec's snapshot-visibility rules, `txnid < min` is
visible, `txnid ≥ max` is invisible, otherwise the id is visible iff it does
not occur in the snapshot id list. -/
def wtTxnVisibleIdSnapshot (id snapMin snapMax : Nat) (ids : List Nat) : Bool :=
  decide (id < snapMin) || (decide (id < snapMax) && !ids.contains id)

/-- `__rollback_txn_visible_id` (lines 287-308). -/
def rollbackTxnVisibleId (c : ConnSnapshot) (id : Nat) : Bool :=
  if !c.recovering then true
  else if c.snapMin = WT_TXN_NONE ∧ c.snapMax = WT_TXN_NONE then true
  else wtTxnVisibleIdSnapshot id c.snapMin c.snapMax c.snapshotIds

/-- `WT_CHECK_RECOVERY_FLAG_TXNID` (lines 11-12). -/
def checkRecoveryFlagTxnid (c : ConnSnapshot) (txnid : Nat) : Bool :=
  c.recovering && decide (txnid ≥ c.snapMin)

/-- A `WT_TIME_WINDOW`. -/
structure TimeWindow where
  start_ts : Nat
  durable_start_ts : Nat
  start_txn : Nat
  stop_ts : Nat
  durable_stop_ts : Nat
  stop_txn : Nat
  prepare : Bool
deriving DecidableEq

/-- Modelled from the spec: `WT_TIME_WINDOW_HAS_STOP` is not under the
provided sources; per the spec's data model a cell has a stop side iff the
stop fields do not hold their "no stop" sentinels (`stop_ts = max`). -/
def twHasStop (tw : TimeWindow) : Bool :=
  !decide (tw.stop_ts = WT_TS_MAX)

/-- An unpacked on-disk cell (`WT_CELL_UNPACK_KV`): its time window and its
value payload. -/
structure CellUnpackKV where
  tw : TimeWindow
  value : Nat
deriving DecidableEq

/-- A history-store entry as decoded by `__rollback_ondisk_fixup_key`:
`get_key` yields `(start_ts, counter)`, `get_value` yields
`(stop_durable_ts, durable_ts, type, value)`, and `__wt_hs_upd_time_window`
yields the entry's unpacked time window. -/
structure HsFixEntry where
  start_ts : Nat
  counter : Nat
  stop_durable_ts : Nat
  durable_ts : Nat
  type : UpdateType
  value : Nat
  tw : TimeWindow
deriving DecidableEq

/-- One step of materialising `full_value` (lines 427-434): a history-store
entry is applied only when `hs_start_ts <= unpack->tw.start_ts` or the
on-disk cell is prepared; a MODIFY entry is applied as a delta through the
external modify-apply collaborator `applyMod`, any other entry replaces
`full_value`. -/
def applyHsStep (applyMod : Nat → Nat → Nat) (dskTw : TimeWindow) (fv : Nat)
    (e : HsFixEntry) : Nat :=
  if decide (e.start_ts ≤ dskTw.start_ts) || dskTw.prepare then
    if e.type = UpdateType.modify then applyMod fv e.value else e.value
  else fv

/-- The stop condition of the history-store scan (lines 467-479): the entry's
start transaction is visible and its durable timestamp is at or below the
rollback timestamp. -/
def hsStable (c : ConnSnapshot) (ts : Nat) (e : HsFixEntry) : Bool :=
  rollbackTxnVisibleId c e.tw.start_txn && decide (e.durable_ts ≤ ts)

/-- Result of the backward history-store scan of
`__rollback_ondisk_fixup_key` (the loop at lines 407-504). -/
structure HsScanResult where
  found : Option HsFixEntry
  fullValue : Nat
  removed : List HsFixEntry
  remaining : List HsFixEntry
deriving DecidableEq

/-- The backward history-store scan of `__rollback_ondisk_fixup_key`
(lines 407-504).  `entries` are the key's history-store entries in the
descending `(start_ts, counter)` order the cursor yields.  Each entry is
first (conditionally) applied to `full_value`; the scan stops at the first
stable entry, and removes every entry examined before that. -/
def hsScanFixup (applyMod : Nat → Nat → Nat) (c : ConnSnapshot) (ts : Nat)
    (dskTw : TimeWindow) (fv : Nat) : List HsFixEntry → HsScanResult
  | [] => ⟨none, fv, [], []⟩
  | e :: rest =>
    let fv' := applyHsStep applyMod dskTw fv e
    if hsStable c ts e then ⟨some e, fv', [], rest⟩
    else
      let r := hsScanFixup applyMod c ts dskTw fv' rest
      ⟨r.found, r.fullValue, e :: r.removed, r.remaining⟩

/-- The tombstone produced by the external allocator
`__wt_upd_alloc_tombstone`: a TOMBSTONE update with empty payload and zeroed
time fields. -/
def mkPlainTombstone : Update :=
  { type := UpdateType.tombstone, value := 0, txnid := WT_TXN_NONE,
    start_ts := WT_TS_NONE, durable_ts := WT_TS_NONE,
    prepare_state := PrepareState.init, flags := {} }

/-- Result of `__rollback_ondisk_fixup_key`: the update(s) prepended to the
key's chain (newest first), the surviving history-store entries for the key,
and the removed ones (in removal order). -/
structure FixupResult where
  chain : List Update
  hsRemaining : List HsFixEntry
  hsRemoved : List HsFixEntry
deriving DecidableEq

/-- `__rollback_ondisk_fixup_key` (lines 315-614): scan the history store
backwards from the newest entry of the key; if a stable entry is found,
prepend a STANDARD update carrying the materialised `full_value` with the
entry's start time point (and, when the entry also carries a stable stop time
point, a TOMBSTONE in front of it), tagged `WT_UPDATE_RESTORED_FROM_HS`, and
remove the matched entry; otherwise prepend a plain tombstone. -/
def rollbackOndiskFixupKey (applyMod : Nat → Nat → Nat) (c : ConnSnapshot)
    (ts : Nat) (dsk : CellUnpackKV) (entries : List HsFixEntry) : FixupResult :=
  let s := hsScanFixup applyMod c ts dsk.tw dsk.value entries
  match s.found with
  | some e =>
    let upd : Update :=
      { type := UpdateType.standard, value := s.fullValue,
        txnid := if c.recovering then WT_TXN_NONE else e.tw.start_txn,
        durable_ts := e.tw.durable_start_ts, start_ts := e.tw.start_ts,
        prepare_state := PrepareState.init,
        flags := { restoredFromHs := true } }
    if rollbackTxnVisibleId c e.tw.stop_txn && decide (e.stop_durable_ts ≤ ts) then
      let tombstone : Update :=
        { type := UpdateType.tombstone, value := 0,
          txnid := if c.recovering then WT_TXN_NONE else e.tw.stop_txn,
          durable_ts := e.tw.durable_stop_ts, start_ts := e.tw.stop_ts,
          prepare_state := PrepareState.init,
          flags := { restoredFromHs := true } }
      ⟨[tombstone, upd], s.remaining, s.removed ++ [e]⟩
    else
      ⟨[upd], s.remaining, s.removed ++ [e]⟩
  | none => ⟨[mkPlainTombstone], s.remaining, s.removed⟩

/-- The action `__rollback_abort_ondisk_kv` decides on for an on-disk cell. -/
inductive OndiskKvAction where
  | hsSweepTombstone
  | hsNoop
  | fixup
  | removeKeyTombstone
  | restore (u : Update)
  | ondiskStable
deriving DecidableEq

/-- `__rollback_abort_ondisk_kv` (lines 620-771), as the decision it takes on
the unpacked on-disk cell: sweep an unstable history-store cell with a
tombstone; send an unstable-start (or prepared self-delete) data-store cell
to `__rollback_ondisk_fixup_key` (tombstone when the engine is in-memory);
resurrect a stable-start cell whose stop side is unstable by prepending a
STANDARD update carrying the on-disk value, tagged
`WT_UPDATE_RESTORED_FROM_DS`; otherwise report the on-disk cell stable. -/
def rollbackAbortOndiskKv (isHs inMemory : Bool) (c : ConnSnapshot) (ts : Nat)
    (vpack : CellUnpackKV) : OndiskKvAction :=
  let prepared := vpack.tw.prepare
  if isHs then
    if decide (ts < vpack.tw.durable_stop_ts) || decide (vpack.tw.stop_ts = WT_TS_MAX) then
      OndiskKvAction.hsSweepTombstone
    else OndiskKvAction.hsNoop
  else if decide (ts < vpack.tw.durable_start_ts) ||
      !rollbackTxnVisibleId c vpack.tw.start_txn ||
      (!twHasStop vpack.tw && prepared) then
    if !inMemory then OndiskKvAction.fixup else OndiskKvAction.removeKeyTombstone
  else if twHasStop vpack.tw &&
      (decide (ts < vpack.tw.durable_stop_ts) ||
        !rollbackTxnVisibleId c vpack.tw.stop_txn || prepared) then
    if vpack.tw.start_ts = vpack.tw.stop_ts ∧
        vpack.tw.durable_start_ts = vpack.tw.durable_stop_ts ∧
        vpack.tw.start_txn = vpack.tw.stop_txn then
      if !inMemory then OndiskKvAction.fixup else OndiskKvAction.removeKeyTombstone
    else
      OndiskKvAction.restore
        { type := UpdateType.standard, value := vpack.value,
          txnid := if c.recovering then WT_TXN_NONE else vpack.tw.start_txn,
          durable_ts := vpack.tw.durable_start_ts, start_ts := vpack.tw.start_ts,
          prepare_state := PrepareState.init,
          flags := { restoredFromDs := true } }
  else OndiskKvAction.ondiskStable

/-- A `WT_TIME_AGGREGATE`, as read by `__rollback_page_needs_abort`. -/
structure TimeAggregate where
  newest_start_durable_ts : Nat
  newest_stop_durable_ts : Nat
  newest_stop_ts : Nat
  newest_txn : Nat
  prepare : Bool
deriving DecidableEq

/-- The reconciliation result kinds `__rollback_page_needs_abort`
distinguishes on `mod->rec_result` (`WT_PM_REC_REPLACE`,
`WT_PM_REC_MULTIBLOCK`, anything else). -/
inductive RecResultModel where
  | replace (ta : TimeAggregate)
  | multiblock (tas : List TimeAggregate)
  | other
deriving DecidableEq

/-- The address a ref carries: an on-page address cell (not off-page, to be
unpacked), an off-page `WT_ADDR`, or no address at all. -/
inductive RefAddrModel where
  | onPageCell (ta : TimeAggregate)
  | offPage (ta : TimeAggregate)
  | noAddr
deriving DecidableEq

/-- The parts of a `WT_REF` that `__rollback_page_needs_abort` examines. -/
structure RefModel where
  mod : Option RecResultModel
  addr : RefAddrModel
deriving DecidableEq

/-- `__rollback_get_ref_max_durable_timestamp` (lines 932-939). -/
def refMaxDurableTs (isHs : Bool) (ta : TimeAggregate) : Nat :=
  if isHs then max ta.newest_stop_durable_ts ta.newest_stop_ts
  else max ta.newest_start_durable_ts ta.newest_stop_durable_ts

/-- `__rollback_page_needs_abort` (lines 946-1016): examine, in priority
order, the modify record's replacement address, the modify record's
multi-block addresses, an on-page address cell, or an off-page address; the
recovery-txnid trigger is only consulted in the last two cases. -/
def rollbackPageNeedsAbort (isHs : Bool) (c : ConnSnapshot) (ts : Nat)
    (ref : RefModel) : Bool :=
  match ref.mod with
  | some (RecResultModel.replace ta) =>
    decide (ts < refMaxDurableTs isHs ta) || ta.prepare
  | some (RecResultModel.multiblock tas) =>
    let durable := tas.foldl (fun acc ta => max acc (refMaxDurableTs isHs ta)) WT_TS_NONE
    let prepared := tas.foldl (fun acc ta => acc || ta.prepare) false
    decide (ts < durable) || prepared
  | _ =>
    match ref.addr with
    | RefAddrModel.onPageCell ta =>
      decide (ts < refMaxDurableTs isHs ta) || ta.prepare ||
        checkRecoveryFlagTxnid c ta.newest_txn
    | RefAddrModel.offPage ta =>
      decide (ts < refMaxDurableTs isHs ta) || ta.prepare ||
        checkRecoveryFlagTxnid c ta.newest_txn
    | RefAddrModel.noAddr => false

/-- `WT_REF` states distinguished by the modelled code. -/
inductive RefState where
  | disk
  | deleted
  | ready
  | locked
deriving DecidableEq

/-- A fast-truncate descriptor (`WT_PAGE_DELETED`, reached through
`ref->ft_info.del`). -/
structure PageDel where
  durable_timestamp : Nat
deriving DecidableEq

/-- A child ref of an internal page as examined by
`__rollback_abort_fast_truncate`. -/
structure ChildRef where
  state : RefState
  del : Option PageDel
deriving DecidableEq

/-- Modelled from the spec: `__wt_delete_page_rollback` is not under the
provided sources; per the spec it rolls back the fast-truncate, restoring the
child's visibility, so the ref leaves the DELETED state. -/
def wtDeletePageRollback (r : ChildRef) : ChildRef :=
  { r with state := RefState.ready }

/-- The per-child condition of `__rollback_abort_fast_truncate`
(lines 1087-1088): the ref is in the DELETED state, carries a fast-truncate
descriptor, and the descriptor's durable timestamp exceeds the rollback
timestamp. -/
def fastTruncateNeedsRollback (ts : Nat) (r : ChildRef) : Bool :=
  decide (r.state = RefState.deleted) &&
    (match r.del with
     | some d => decide (ts < d.durable_timestamp)
     | none => false)

/-- `__rollback_abort_fast_truncate` (lines 1073-1096): walk the child refs
of an internal page, rolling back exactly the fast-truncated children whose
descriptor is newer than the rollback timestamp. -/
def rollbackAbortFastTruncate (ts : Nat) (children : List ChildRef) : List ChildRef :=
  children.map (fun r => if fastTruncateNeedsRollback ts r then wtDeletePageRollback r else r)

/-- A history-store entry as keyed across the whole store
(`(btree_id, key-as-start_ts/counter)`), for the whole-btree truncation of
`__rollback_to_stable_btree_hs_truncate`. -/
structure GlobalHsEntry where
  btree_id : Nat
  start_ts : Nat
  counter : Nat
deriving DecidableEq

/-- `__rollback_to_stable_btree_hs_truncate` (lines 1217-1261): position the
history-store cursor at the smallest entry of the given btree id and remove
every entry the forward walk yields.  The cursor wrapper guarantees the walk
never yields an entry of a different btree id (the body asserts
`btree_id == hs_btree_id`) and ends with `WT_NOTFOUND` at the range end, so
the surviving store holds exactly the entries of the other btrees. -/
def rollbackToStableBtreeHsTruncate (btreeId : Nat) (hs : List GlobalHsEntry) :
    List GlobalHsEntry :=
  hs.filter (fun e => !decide (e.btree_id = btreeId))

/-- The connection-level flags `__rollback_to_stable_btree_apply` consults,
together with the recovered-checkpoint snapshot. -/
structure ApplyConn where
  snapshot : ConnSnapshot
  closing : Bool
  inMemory : Bool
  globalStable : Nat
deriving DecidableEq

/-- The per-object data `__rollback_to_stable_btree_apply` extracts from the
object's metadata `checkpoint` configuration (lines 1386-1415), plus the
dhandle-cache lookups it performs: `inCache`/`modifiedInCache` reflect the
`__wt_conn_dhandle_find` probe at lines 1448-1450, `modifiedAtEnd` the
`S2BT(session)->modified` read at line 1495 (after the optional tree
processing). -/
structure BtreeMeta where
  newestStartDurable : Nat
  newestStopDurable : Nat
  durableTsFound : Bool
  prepared : Bool
  rollbackTxnid : Nat
  addrSize : Nat
  btreeId : Nat
  inCache : Bool
  modifiedInCache : Bool
  modifiedAtEnd : Bool
deriving DecidableEq

/-- `max_durable_ts` of `__rollback_to_stable_btree_apply` (line 1416). -/
def btreeApplyMaxDurable (m : BtreeMeta) : Nat :=
  max m.newestStartDurable m.newestStopDurable

/-- Outcome of `__rollback_to_stable_btree_apply` for one object:
whether the object was skipped by the recovery/shutdown precondition, whether
its tree was processed (the dhandle opened and the walker run), whether its
history-store range was truncated, and the resulting history store. -/
structure ApplyOutcome where
  skippedEarly : Bool
  processed : Bool
  truncated : Bool
  hs : List GlobalHsEntry
deriving DecidableEq

/-- `__rollback_to_stable_btree_apply` (lines 1356-1506), on the success
path (the dhandle open and the tree walk are assumed to succeed): skip the
object under the recovery/shutdown precondition; otherwise process the tree
when the cached dhandle is modified, the checkpoint durable timestamp exceeds
the rollback timestamp, prepared updates were written, no durable timestamp
was found, or the checkpoint's newest txnid triggers the recovery check; then
— independently of that decision — truncate the whole history-store range of
the btree when no durable timestamp survives in the checkpoint metadata, the
engine is not in-memory, and the tree is not both opened here and modified. -/
def rollbackToStableBtreeApply (conn : ApplyConn) (m : BtreeMeta) (ts : Nat)
    (hs : List GlobalHsEntry) : ApplyOutcome :=
  let maxDurable := btreeApplyMaxDurable m
  let hasTxnGtSnap := checkRecoveryFlagTxnid conn.snapshot m.rollbackTxnid
  if (conn.snapshot.recovering || conn.closing) &&
      (decide (m.addrSize = 0) ||
        (decide (conn.globalStable = WT_TS_NONE) && !decide (maxDurable = WT_TS_NONE))) then
    ⟨true, false, false, hs⟩
  else
    let performRts := m.inCache && m.modifiedInCache
    let process := performRts || decide (ts < maxDurable) || m.prepared ||
      !m.durableTsFound || hasTxnGtSnap
    let dhandleAllocated := process
    let truncate := (!dhandleAllocated || !m.modifiedAtEnd) &&
      decide (maxDurable = WT_TS_NONE) && !conn.inMemory
    ⟨false, process, truncate,
      if truncate then rollbackToStableBtreeHsTruncate m.btreeId hs else hs⟩

/-- The global transaction state fields `__rollback_to_stable` reads and
writes (`WT_TXN_GLOBAL`). -/
structure TxnGlobal where
  stable_timestamp : Nat
  durable_timestamp : Nat
  has_stable_timestamp : Bool
  has_durable_timestamp : Bool
deriving DecidableEq

/-- The externally visible milestones of `__rollback_to_stable`, in program
order. -/
inductive RtsEvent where
  | applyAll
  | setGlobalDurable
  | forcedCheckpoint
deriving DecidableEq

/-- Failure kinds of the orchestrator's two fallible stages. -/
inductive RtsErr where
  | applyAllFailed
  | checkpointFailed
deriving DecidableEq

/-- Outcome of `__rollback_to_stable`: the final global transaction state,
the trace of milestones reached (in order), and the error, if any. -/
structure RtsOutcome where
  globalState : TxnGlobal
  trace : List RtsEvent
  err : Option RtsErr
deriving DecidableEq

/-- `__rollback_to_stable` (lines 1602-1735), from the per-object pass on:
run `__rollback_to_stable_btree_apply_all` (whose success or failure is the
`applyAllFails` parameter); on success lower the global durable timestamp to
the stable timestamp (lines 1717-1718); then force a checkpoint unless the
engine is in-memory or the caller requested no checkpoint (lines 1725-1726). -/
def rollbackToStable (inMemory noCkpt applyAllFails ckptFails : Bool)
    (g : TxnGlobal) : RtsOutcome :=
  if applyAllFails then ⟨g, [RtsEvent.applyAll], some RtsErr.applyAllFailed⟩
  else
    let g' := { g with has_durable_timestamp := g.has_stable_timestamp,
                       durable_timestamp := g.stable_timestamp }
    if !inMemory && !noCkpt then
      if ckptFails then
        ⟨g', [RtsEvent.applyAll, RtsEvent.setGlobalDurable, RtsEvent.forcedCheckpoint],
          some RtsErr.checkpointFailed⟩
      else
        ⟨g', [RtsEvent.applyAll, RtsEvent.setGlobalDurable, RtsEvent.forcedCheckpoint], none⟩
    else ⟨g', [RtsEvent.applyAll, RtsEvent.setGlobalDurable], none⟩

/-! ### Properties of the history-store scan of `__rollback_ondisk_fixup_key` -/

theorem hsScanFixup_found (am : Nat → Nat → Nat) (c : ConnSnapshot) (ts : Nat)
    (tw : TimeWindow) :
    ∀ (es : List HsFixEntry) (fv : Nat),
      (hsScanFixup am c ts tw fv es).found = es.find? (hsStable c ts)
  | [], _ => rfl
  | e :: rest, fv => by
    by_cases h : hsStable c ts e
    · simp [hsScanFixup, h, List.find?_cons_of_pos]
    · simp only [hsScanFixup, h, if_neg, Bool.false_eq_true, not_false_eq_true,
        List.find?_cons_of_neg, ite_false]
      exact hsScanFixup_found am c ts tw rest _

theorem hsScanFixup_removed (am : Nat → Nat → Nat) (c : ConnSnapshot) (ts : Nat)
    (tw : TimeWindow) :
    ∀ (es : List HsFixEntry) (fv : Nat),
      (hsScanFixup am c ts tw fv es).removed = es.takeWhile (fun e => !hsStable c ts e)
  | [], _ => rfl
  | e :: rest, fv => by
    by_cases h : hsStable c ts e
    · simp [hsScanFixup, h, List.takeWhile_cons]
    · simp only [hsScanFixup, h, Bool.false_eq_true, ite_false, List.takeWhile_cons,
        Bool.not_false, if_pos]
      simp [hsScanFixup_removed am c ts tw rest _]

theorem hsScanFixup_remaining (am : Nat → Nat → Nat) (c : ConnSnapshot) (ts : Nat)
    (tw : TimeWindow) :
    ∀ (es : List HsFixEntry) (fv : Nat),
      (hsScanFixup am c ts tw fv es).remaining =
        (es.dropWhile (fun e => !hsStable c ts e)).tail
  | [], _ => rfl
  | e :: rest, fv => by
    by_cases h : hsStable c ts e
    · simp [hsScanFixup, h, List.dropWhile_cons]
    · simp only [hsScanFixup, h, Bool.false_eq_true, ite_false, List.dropWhile_cons,
        Bool.not_false, if_pos]
      exact hsScanFixup_remaining am c ts tw rest _

theorem hsScanFixup_fullValue (am : Nat → Nat → Nat) (c : ConnSnapshot) (ts : Nat)
    (tw : TimeWindow) :
    ∀ (es : List HsFixEntry) (fv : Nat),
      (hsScanFixup am c ts tw fv es).fullValue =
        ((es.takeWhile (fun e => !hsStable c ts e)) ++
          (es.find? (hsStable c ts)).toList).foldl (applyHsStep am tw) fv
  | [], _ => rfl
  | e :: rest, fv => by
    by_cases h : hsStable c ts e
    · simp [hsScanFixup, h, List.takeWhile_cons, List.find?_cons_of_pos]
    · simp only [hsScanFixup, h, Bool.false_eq_true, ite_false, List.takeWhile_cons,
        Bool.not_false, if_pos, not_false_eq_true, List.find?_cons_of_neg,
        List.cons_append, List.foldl_cons]
      exact hsScanFixup_fullValue am c ts tw rest _

/-- C2.  In the history-store scan of `__rollback_ondisk_fixup_key`, iterating
the key's history-store entries in descending timestamp order: the scan stops
at the first entry whose start transaction is visible and whose durable
timestamp is at or below the stable timestamp (`hsStable`); every entry
examined before that stopping point is removed from the history store; the
entries after the stopping point are untouched; and `full_value` is obtained
by folding `applyHsStep` — which applies an entry only when its start
timestamp is at or below the on-disk cell's start timestamp or the on-disk
cell is prepared, applying a MODIFY entry as a delta through the external
modify-apply collaborator and letting any other entry replace the value —
over exactly the examined entries. -/
theorem rts_c2_hs_scan (am : Nat → Nat → Nat) (c : ConnSnapshot) (ts : Nat)
    (tw : TimeWindow) (fv : Nat) (es : List HsFixEntry) :
    (hsScanFixup am c ts tw fv es).found = es.find? (hsStable c ts) ∧
    (hsScanFixup am c ts tw fv es).removed = es.takeWhile (fun e => !hsStable c ts e) ∧
    (hsScanFixup am c ts tw fv es).remaining =
      (es.dropWhile (fun e => !hsStable c ts e)).tail ∧
    (hsScanFixup am c ts tw fv es).fullValue =
      ((es.takeWhile (fun e => !hsStable c ts e)) ++
        (es.find? (hsStable c ts)).toList).foldl (applyHsStep am tw) fv :=
  ⟨hsScanFixup_found am c ts tw es fv, hsScanFixup_removed am c ts tw es fv,
    hsScanFixup_remaining am c ts tw es fv, hsScanFixup_fullValue am c ts tw es fv⟩

theorem dropWhile_eq_cons_of_find? (q : HsFixEntry → Bool) :
    ∀ (es : List HsFixEntry) (e : HsFixEntry), es.find? q = some e →
      es.dropWhile (fun x => !q x) = e :: (es.dropWhile (fun x => !q x)).tail
  | [], e, h => by simp at h
  | a :: rest, e, h => by
    by_cases ha : q a
    · rw [List.find?_cons_of_pos _ ha] at h
      cases h
      simp [List.dropWhile_cons, ha]
    · rw [List.find?_cons_of_neg _ ha] at h
      simp only [List.dropWhile_cons, ha, Bool.not_false, if_pos]
      exact dropWhile_eq_cons_of_find? q rest e h

/-- C3.  In `__rollback_ondisk_fixup_key`: if the scan finds a stable
history-store entry `e`, a STANDARD update carrying the materialised
`full_value` is prepended, with durable, start timestamps and txnid taken
from `e`'s time window (txnid scrubbed to `WT_TXN_NONE` under recovery) and
tagged `WT_UPDATE_RESTORED_FROM_HS`, and `e` is removed from the history
store; a TOMBSTONE carrying `e`'s stop time point is prepended in front of it
iff `e`'s stop durable timestamp is at or below the stable timestamp and its
stop transaction is visible, also tagged `WT_UPDATE_RESTORED_FROM_HS`.  If no
stable entry is found, a single plain tombstone is synthesised — as it also
is, without consulting the history store, when the engine is in-memory
(`__rollback_abort_ondisk_kv` lines 683-693). -/
theorem rts_c3_restore_from_hs (am : Nat → Nat → Nat) (c : ConnSnapshot)
    (ts : Nat) (dsk : CellUnpackKV) (entries : List HsFixEntry) :
    (∀ e, (hsScanFixup am c ts dsk.tw dsk.value entries).found = some e →
      (∃ u, u.type = UpdateType.standard ∧
        u.value = (hsScanFixup am c ts dsk.tw dsk.value entries).fullValue ∧
        u.durable_ts = e.tw.durable_start_ts ∧ u.start_ts = e.tw.start_ts ∧
        u.txnid = (if c.recovering then WT_TXN_NONE else e.tw.start_txn) ∧
        u.flags.restoredFromHs = true ∧
        ((rollbackTxnVisibleId c e.tw.stop_txn && decide (e.stop_durable_ts ≤ ts)) = true →
          ∃ t, (rollbackOndiskFixupKey am c ts dsk entries).chain = [t, u] ∧
            t.type = UpdateType.tombstone ∧
            t.txnid = (if c.recovering then WT_TXN_NONE else e.tw.stop_txn) ∧
            t.durable_ts = e.tw.durable_stop_ts ∧ t.start_ts = e.tw.stop_ts ∧
            t.flags.restoredFromHs = true) ∧
        ((rollbackTxnVisibleId c e.tw.stop_txn && decide (e.stop_durable_ts ≤ ts)) = false →
          (rollbackOndiskFixupKey am c ts dsk entries).chain = [u])) ∧
      (rollbackOndiskFixupKey am c ts dsk entries).hsRemoved =
        (hsScanFixup am c ts dsk.tw dsk.value entries).removed ++ [e] ∧
      (rollbackOndiskFixupKey am c ts dsk entries).hsRemaining =
        (hsScanFixup am c ts dsk.tw dsk.value entries).remaining ∧
      entries = (rollbackOndiskFixupKey am c ts dsk entries).hsRemoved ++
        (rollbackOndiskFixupKey am c ts dsk entries).hsRemaining) ∧
    ((hsScanFixup am c ts dsk.tw dsk.value entries).found = none →
      (rollbackOndiskFixupKey am c ts dsk entries).chain = [mkPlainTombstone] ∧
      mkPlainTombstone.type = UpdateType.tombstone) ∧
    (∀ vpack : CellUnpackKV,
      (decide (ts < vpack.tw.durable_start_ts) ||
        !rollbackTxnVisibleId c vpack.tw.start_txn ||
        (!twHasStop vpack.tw && vpack.tw.prepare)) = true →
      rollbackAbortOndiskKv false true c ts vpack = OndiskKvAction.removeKeyTombstone) := by
  refine ⟨?_, ?_, ?_⟩
  · intro e he
    have hfind : entries.find? (hsStable c ts) = some e := by
      rw [← hsScanFixup_found am c ts dsk.tw entries dsk.value]; exact he
    have h2 := dropWhile_eq_cons_of_find? (hsStable c ts) entries e hfind
    have hdec : entries = (hsScanFixup am c ts dsk.tw dsk.value entries).removed ++
        e :: (hsScanFixup am c ts dsk.tw dsk.value entries).remaining := by
      rw [hsScanFixup_removed, hsScanFixup_remaining, ← h2,
        List.takeWhile_append_dropWhile]
    by_cases hstop :
        (rollbackTxnVisibleId c e.tw.stop_txn && decide (e.stop_durable_ts ≤ ts)) = true
    · refine ⟨⟨Update.mk UpdateType.standard
          (hsScanFixup am c ts dsk.tw dsk.value entries).fullValue
          (if c.recovering then WT_TXN_NONE else e.tw.start_txn)
          e.tw.start_ts e.tw.durable_start_ts PrepareState.init
          (UpdateFlags.mk false true false),
          rfl, rfl, rfl, rfl, rfl, rfl, ?_, ?_⟩, ?_, ?_, ?_⟩
      · intro _
        refine ⟨Update.mk UpdateType.tombstone 0
            (if c.recovering then WT_TXN_NONE else e.tw.stop_txn)
            e.tw.stop_ts e.tw.durable_stop_ts PrepareState.init
            (UpdateFlags.mk false true false), ?_, rfl, rfl, rfl, rfl, rfl⟩
        simp only [rollbackOndiskFixupKey, he, hstop, if_pos]
      · intro hc; rw [hstop] at hc; cases hc
      · simp only [rollbackOndiskFixupKey, he, hstop, if_pos]
      · simp only [rollbackOndiskFixupKey, he, hstop, if_pos]
      · simp only [rollbackOndiskFixupKey, he, hstop, if_pos]
        conv_lhs => rw [hdec]
        simp
    · rw [Bool.not_eq_true] at hstop
      refine ⟨⟨Update.mk UpdateType.standard
          (hsScanFixup am c ts dsk.tw dsk.value entries).fullValue
          (if c.recovering then WT_TXN_NONE else e.tw.start_txn)
          e.tw.start_ts e.tw.durable_start_ts PrepareState.init
          (UpdateFlags.mk false true false),
          rfl, rfl, rfl, rfl, rfl, rfl, ?_, ?_⟩, ?_, ?_, ?_⟩
      · intro hc; rw [hstop] at hc; cases hc
      · intro _
        simp only [rollbackOndiskFixupKey, he, hstop, Bool.false_eq_true, ite_false]
      · simp only [rollbackOndiskFixupKey, he, hstop, Bool.false_eq_true, ite_false]
      · simp only [rollbackOndiskFixupKey, he, hstop, Bool.false_eq_true, ite_false]
      · simp only [rollbackOndiskFixupKey, he, hstop, Bool.false_eq_true, ite_false]
        conv_lhs => rw [hdec]
        simp
  · intro hnone
    constructor
    · simp only [rollbackOndiskFixupKey, hnone]
    · rfl
  · intro vpack hcond
    simp [rollbackAbortOndiskKv, hcond]

/-- Witness for C3: a concrete run in which the newest history-store entry is
stable, its stop side is not (stop durable timestamp 150 > 100), so exactly
the STANDARD restored update is produced and the matched entry is removed. -/
theorem rts_c3_witness :
    (rollbackOndiskFixupKey (fun a b => a + b) (ConnSnapshot.mk false 0 0 []) 100
      (CellUnpackKV.mk (TimeWindow.mk 150 150 10 WT_TS_MAX 0 0 false) 3)
      [HsFixEntry.mk 95 0 150 95 UpdateType.standard 2
        (TimeWindow.mk 95 95 8 0 0 0 false)]).hsRemoved =
      [HsFixEntry.mk 95 0 150 95 UpdateType.standard 2
        (TimeWindow.mk 95 95 8 0 0 0 false)] ∧
    (rollbackOndiskFixupKey (fun a b => a + b) (ConnSnapshot.mk false 0 0 []) 100
      (CellUnpackKV.mk (TimeWindow.mk 150 150 10 WT_TS_MAX 0 0 false) 3)
      [HsFixEntry.mk 95 0 150 95 UpdateType.standard 2
        (TimeWindow.mk 95 95 8 0 0 0 false)]).hsRemaining = [] := by
  obtain ⟨h1, -, -⟩ := rts_c3_restore_from_hs (fun a b => a + b)
    (ConnSnapshot.mk false 0 0 []) 100
    (CellUnpackKV.mk (TimeWindow.mk 150 150 10 WT_TS_MAX 0 0 false) 3)
    [HsFixEntry.mk 95 0 150 95 UpdateType.standard 2
      (TimeWindow.mk 95 95 8 0 0 0 false)]
  obtain ⟨-, hrem, hrest, -⟩ := h1
    (HsFixEntry.mk 95 0 150 95 UpdateType.standard 2
      (TimeWindow.mk 95 95 8 0 0 0 false)) rfl
  exact ⟨hrem, hrest⟩

/-! ### `__rollback_page_needs_abort` (C5) -/

theorem foldl_max_map (f : TimeAggregate → Nat) :
    ∀ (tas : List TimeAggregate) (i : Nat),
      tas.foldl (fun acc ta => max acc (f ta)) i = max i ((tas.map f).foldr max 0)
  | [], i => by simp
  | t :: rest, i => by
    simp only [List.foldl_cons, List.map_cons, List.foldr_cons]
    rw [foldl_max_map f rest (max i (f t)), Nat.max_assoc]

theorem foldl_or_any :
    ∀ (tas : List TimeAggregate) (b : Bool),
      tas.foldl (fun acc ta => acc || ta.prepare) b = (b || tas.any (fun ta => ta.prepare))
  | [], b => by simp
  | t :: rest, b => by
    simp only [List.foldl_cons, List.any_cons]
    rw [foldl_or_any rest (b || t.prepare), Bool.or_assoc]

/-- Counterexample to C5 as stated: with recovery active
(`recovery_ckpt_snap_min = 1`) and a ref whose modify record is a reconciled
replace block with `newest_txn = 7 ≥ 1`, a max durable timestamp of 5 ≤ 10
and no prepared updates, the claim requires the function to return true
(recovery is active and the selected aggregate's `newest_txn` is at or above
the snapshot minimum), yet `__rollback_page_needs_abort` returns false: the
recovery-txnid trigger is not consulted for the replace-block aggregate. -/
theorem rts_c5_counterexample :
    rollbackPageNeedsAbort false (ConnSnapshot.mk true 1 5 []) 10
      (RefModel.mk (some (RecResultModel.replace (TimeAggregate.mk 5 5 0 7 false)))
        RefAddrModel.noAddr) = false ∧
    checkRecoveryFlagTxnid (ConnSnapshot.mk true 1 5 []) 7 = true ∧
    refMaxDurableTs false (TimeAggregate.mk 5 5 0 7 false) ≤ 10 ∧
    (TimeAggregate.mk 5 5 0 7 false).prepare = false := by
  refine ⟨rfl, rfl, ?_, rfl⟩
  decide

/-- C5 (amended).  `__rollback_page_needs_abort` selects one time aggregate
in priority order — the modify record's replacement address, the maximum over
the modify record's multi-block addresses, an on-page address cell, an
off-page address — computes the max durable timestamp through
`refMaxDurableTs` (for the history store, `max(newest_stop_durable_ts,
newest_stop_ts)`; otherwise `max(newest_start_durable_ts,
newest_stop_durable_ts)`), and returns true iff that timestamp exceeds the
rollback timestamp or the aggregate is prepared, with the recovery-txnid
trigger (`recovery active ∧ newest_txn ≥ recovery_ckpt_snap_min`) applied
additionally in the on-page-cell and off-page-address cases only; with no
aggregate at all it returns false. -/
theorem rts_c5_needs_abort_amended (isHs : Bool) (c : ConnSnapshot) (ts : Nat)
    (ta : TimeAggregate) (tas : List TimeAggregate) (a : RefAddrModel) :
    rollbackPageNeedsAbort isHs c ts
        (RefModel.mk (some (RecResultModel.replace ta)) a) =
      (decide (ts < refMaxDurableTs isHs ta) || ta.prepare) ∧
    rollbackPageNeedsAbort isHs c ts
        (RefModel.mk (some (RecResultModel.multiblock tas)) a) =
      (decide (ts < (tas.map (refMaxDurableTs isHs)).foldr max WT_TS_NONE) ||
        tas.any (fun x => x.prepare)) ∧
    rollbackPageNeedsAbort isHs c ts
        (RefModel.mk none (RefAddrModel.onPageCell ta)) =
      (decide (ts < refMaxDurableTs isHs ta) || ta.prepare ||
        checkRecoveryFlagTxnid c ta.newest_txn) ∧
    rollbackPageNeedsAbort isHs c ts
        (RefModel.mk (some RecResultModel.other) (RefAddrModel.onPageCell ta)) =
      (decide (ts < refMaxDurableTs isHs ta) || ta.prepare ||
        checkRecoveryFlagTxnid c ta.newest_txn) ∧
    rollbackPageNeedsAbort isHs c ts
        (RefModel.mk none (RefAddrModel.offPage ta)) =
      (decide (ts < refMaxDurableTs isHs ta) || ta.prepare ||
        checkRecoveryFlagTxnid c ta.newest_txn) ∧
    rollbackPageNeedsAbort isHs c ts
        (RefModel.mk (some RecResultModel.other) (RefAddrModel.offPage ta)) =
      (decide (ts < refMaxDurableTs isHs ta) || ta.prepare ||
        checkRecoveryFlagTxnid c ta.newest_txn) ∧
    rollbackPageNeedsAbort isHs c ts (RefModel.mk none RefAddrModel.noAddr) = false ∧
    rollbackPageNeedsAbort isHs c ts
        (RefModel.mk (some RecResultModel.other) RefAddrModel.noAddr) = false := by
  refine ⟨rfl, ?_, rfl, rfl, rfl, rfl, rfl, rfl⟩
  show (decide (ts < tas.foldl (fun acc x => max acc (refMaxDurableTs isHs x)) WT_TS_NONE) ||
    tas.foldl (fun acc x => acc || x.prepare) false) = _
  rw [foldl_max_map (refMaxDurableTs isHs) tas WT_TS_NONE, foldl_or_any tas false]
  have hmax : max WT_TS_NONE ((tas.map (refMaxDurableTs isHs)).foldr max 0) =
      (tas.map (refMaxDurableTs isHs)).foldr max WT_TS_NONE := by
    show max 0 _ = _
    rw [Nat.zero_max]
    rfl
  rw [hmax, Bool.false_or]

/-! ### The orchestrator `__rollback_to_stable` (C6) -/

/-- C6.  When `__rollback_to_stable` returns successfully, the global durable
timestamp equals the global stable timestamp and `has_durable_timestamp`
equals `has_stable_timestamp`; the assignment happens after the per-object
pass (`__rollback_to_stable_btree_apply_all`) and before the forced
checkpoint; and the forced checkpoint is issued iff the caller did not
request `no_ckpt` and the engine is not in-memory. -/
theorem rts_c6_global_durable (inMemory noCkpt aFail cFail : Bool) (g : TxnGlobal) :
    (rollbackToStable inMemory noCkpt aFail cFail g).err = none →
    (rollbackToStable inMemory noCkpt aFail cFail g).globalState.durable_timestamp =
      (rollbackToStable inMemory noCkpt aFail cFail g).globalState.stable_timestamp ∧
    (rollbackToStable inMemory noCkpt aFail cFail g).globalState.has_durable_timestamp =
      (rollbackToStable inMemory noCkpt aFail cFail g).globalState.has_stable_timestamp ∧
    (rollbackToStable inMemory noCkpt aFail cFail g).globalState.stable_timestamp =
      g.stable_timestamp ∧
    (rollbackToStable inMemory noCkpt aFail cFail g).globalState.durable_timestamp =
      g.stable_timestamp ∧
    (∃ i j : Nat, (rollbackToStable inMemory noCkpt aFail cFail g).trace[i]? =
        some RtsEvent.applyAll ∧
      (rollbackToStable inMemory noCkpt aFail cFail g).trace[j]? =
        some RtsEvent.setGlobalDurable ∧ i < j ∧
      ∀ k : Nat, (rollbackToStable inMemory noCkpt aFail cFail g).trace[k]? =
          some RtsEvent.forcedCheckpoint → j < k) ∧
    (RtsEvent.forcedCheckpoint ∈ (rollbackToStable inMemory noCkpt aFail cFail g).trace ↔
      (inMemory = false ∧ noCkpt = false)) := by
  intro herr
  cases aFail with
  | true => cases herr
  | false =>
    cases inMemory with
    | true =>
      refine ⟨rfl, rfl, rfl, rfl, ⟨0, 1, rfl, rfl, Nat.zero_lt_one, ?_⟩, ?_⟩
      · intro k hk
        match k with
        | 0 => cases hk
        | 1 => cases hk
        | n + 2 => cases hk
      · simp [rollbackToStable]
    | false =>
      cases noCkpt with
      | true =>
        refine ⟨rfl, rfl, rfl, rfl, ⟨0, 1, rfl, rfl, Nat.zero_lt_one, ?_⟩, ?_⟩
        · intro k hk
          match k with
          | 0 => cases hk
          | 1 => cases hk
          | n + 2 => cases hk
        · simp [rollbackToStable]
      | false =>
        cases cFail with
        | true => cases herr
        | false =>
          refine ⟨rfl, rfl, rfl, rfl, ⟨0, 1, rfl, rfl, Nat.zero_lt_one, ?_⟩, ?_⟩
          · intro k hk
            match k with
            | 0 => cases hk
            | 1 => cases hk
            | 2 => exact Nat.one_lt_two
            | n + 3 => cases hk
          · simp [rollbackToStable]

/-- Witness for C6: a concrete successful run with checkpointing enabled. -/
theorem rts_c6_witness :
    (rollbackToStable false false false false
        (TxnGlobal.mk 70 95 true false)).globalState.durable_timestamp =
      (rollbackToStable false false false false
        (TxnGlobal.mk 70 95 true false)).globalState.stable_timestamp ∧
    (rollbackToStable false false false false
        (TxnGlobal.mk 70 95 true false)).globalState.durable_timestamp = 70 ∧
    (RtsEvent.forcedCheckpoint ∈
      (rollbackToStable false false false false (TxnGlobal.mk 70 95 true false)).trace ↔
      (false = false ∧ false = false)) := by
  obtain ⟨h1, -, -, h4, -, h6⟩ :=
    rts_c6_global_durable false false false false (TxnGlobal.mk 70 95 true false) rfl
  exact ⟨h1, h4, h6⟩

/-! ### `__rollback_to_stable_btree_apply` and the HS truncation (C7) -/

/-- Counterexample to C7 as stated: an object whose checkpoint metadata
carries no durable timestamp at all (`durable_ts_found = false`, hence
`max_durable_ts = 0`) is processed (decision 4 of lines 1454-1455), its
dhandle is opened, and — the tree being unmodified — the whole-range
history-store truncation at lines 1495-1500 runs as well.  Truncation is
therefore not "only the alternative to processing": here the same object is
both processed and truncated (and the btree's HS entries are removed). -/
theorem rts_c7_counterexample :
    (rollbackToStableBtreeApply (ApplyConn.mk (ConnSnapshot.mk false 0 0 []) false false 100)
      (BtreeMeta.mk 0 0 false false 0 5 3 false false false) 100
      [GlobalHsEntry.mk 3 10 0, GlobalHsEntry.mk 4 20 0]).processed = true ∧
    (rollbackToStableBtreeApply (ApplyConn.mk (ConnSnapshot.mk false 0 0 []) false false 100)
      (BtreeMeta.mk 0 0 false false 0 5 3 false false false) 100
      [GlobalHsEntry.mk 3 10 0, GlobalHsEntry.mk 4 20 0]).truncated = true ∧
    (rollbackToStableBtreeApply (ApplyConn.mk (ConnSnapshot.mk false 0 0 []) false false 100)
      (BtreeMeta.mk 0 0 false false 0 5 3 false false false) 100
      [GlobalHsEntry.mk 3 10 0, GlobalHsEntry.mk 4 20 0]).hs =
      [GlobalHsEntry.mk 4 20 0] := by
  refine ⟨rfl, rfl, ?_⟩
  rfl

/-- C7 (amended).  For a catalog object that passes the recovery/shutdown
precondition, whole-range history-store truncation is decided independently
after the processing decision (not as its alternative): it runs iff the
object is non-timestamped (checkpoint max durable timestamp 0), the engine is
not in-memory, and the tree is not both opened by this call and modified —
even when the tree was also processed.  When it runs, every history-store
entry carrying the object's btree id is removed and every other entry
survives, so no entries remain for that btree id; when it does not run, the
history store is unchanged. -/
theorem rts_c7_hs_truncate_amended (conn : ApplyConn) (m : BtreeMeta) (ts : Nat)
    (hs : List GlobalHsEntry) :
    ((rollbackToStableBtreeApply conn m ts hs).skippedEarly = false →
      (rollbackToStableBtreeApply conn m ts hs).truncated =
        ((!(rollbackToStableBtreeApply conn m ts hs).processed || !m.modifiedAtEnd) &&
          decide (btreeApplyMaxDurable m = WT_TS_NONE) && !conn.inMemory)) ∧
    ((rollbackToStableBtreeApply conn m ts hs).truncated = true →
      (∀ e ∈ (rollbackToStableBtreeApply conn m ts hs).hs, e.btree_id ≠ m.btreeId) ∧
      (∀ e ∈ hs, e.btree_id ≠ m.btreeId →
        e ∈ (rollbackToStableBtreeApply conn m ts hs).hs) ∧
      (∀ e ∈ (rollbackToStableBtreeApply conn m ts hs).hs, e ∈ hs)) ∧
    ((rollbackToStableBtreeApply conn m ts hs).truncated = false →
      (rollbackToStableBtreeApply conn m ts hs).hs = hs) := by
  by_cases hskip : ((conn.snapshot.recovering || conn.closing) &&
      (decide (m.addrSize = 0) ||
        (decide (conn.globalStable = WT_TS_NONE) &&
          !decide (btreeApplyMaxDurable m = WT_TS_NONE)))) = true
  · refine ⟨?_, ?_, ?_⟩
    · intro habs
      simp only [rollbackToStableBtreeApply, hskip, if_pos] at habs
      cases habs
    · intro habs
      simp only [rollbackToStableBtreeApply, hskip, if_pos] at habs
      cases habs
    · intro _
      simp only [rollbackToStableBtreeApply, hskip, if_pos]
  · rw [Bool.not_eq_true] at hskip
    by_cases htr : ((!(m.inCache && m.modifiedInCache ||
          decide (ts < btreeApplyMaxDurable m) || m.prepared || !m.durableTsFound ||
          checkRecoveryFlagTxnid conn.snapshot m.rollbackTxnid) || !m.modifiedAtEnd) &&
        decide (btreeApplyMaxDurable m = WT_TS_NONE) && !conn.inMemory) = true
    · refine ⟨?_, ?_, ?_⟩
      · intro _
        simp only [rollbackToStableBtreeApply, hskip, Bool.false_eq_true, ite_false, htr]
      · intro _
        simp only [rollbackToStableBtreeApply, hskip, Bool.false_eq_true, ite_false, htr,
          if_pos, rollbackToStableBtreeHsTruncate]
        refine ⟨?_, ?_, ?_⟩
        · intro e he
          have := List.of_mem_filter he
          simpa using this
        · intro e he hne
          exact List.mem_filter.mpr ⟨he, by simpa using hne⟩
        · intro e he
          exact List.mem_of_mem_filter he
      · intro habs
        simp only [rollbackToStableBtreeApply, hskip, Bool.false_eq_true, ite_false,
          htr] at habs
        cases habs
    · rw [Bool.not_eq_true] at htr
      refine ⟨?_, ?_, ?_⟩
      · intro _
        simp only [rollbackToStableBtreeApply, hskip, Bool.false_eq_true, ite_false, htr]
      · intro habs
        simp only [rollbackToStableBtreeApply, hskip, Bool.false_eq_true, ite_false,
          htr] at habs
      · intro _
        simp only [rollbackToStableBtreeApply, hskip, Bool.false_eq_true, ite_false, htr]

/-- Witness for C7 (amended): the counterexample configuration, where the
object is processed and the history store still loses exactly the entries of
btree id 3. -/
theorem rts_c7_witness :
    (∀ e ∈ (rollbackToStableBtreeApply
        (ApplyConn.mk (ConnSnapshot.mk false 0 0 []) false false 100)
        (BtreeMeta.mk 0 0 false false 0 5 3 false false false) 100
        [GlobalHsEntry.mk 3 10 0, GlobalHsEntry.mk 4 20 0]).hs, e.btree_id ≠ 3) ∧
    (rollbackToStableBtreeApply
        (ApplyConn.mk (ConnSnapshot.mk false 0 0 []) false false 100)
        (BtreeMeta.mk 0 0 false false 0 5 3 false false false) 100
        [GlobalHsEntry.mk 3 10 0, GlobalHsEntry.mk 4 20 0]).truncated = true := by
  obtain ⟨-, h2, -⟩ := rts_c7_hs_truncate_amended
    (ApplyConn.mk (ConnSnapshot.mk false 0 0 []) false false 100)
    (BtreeMeta.mk 0 0 false false 0 5 3 false false false) 100
    [GlobalHsEntry.mk 3 10 0, GlobalHsEntry.mk 4 20 0]
  obtain ⟨ha, -, -⟩ := h2 rfl
  exact ⟨ha, rfl⟩

/-! ### `__rollback_abort_ondisk_kv` (C8) -/

/-- C8.  On a data-store key whose on-disk time window has a stop side that
is unstable (stop durable timestamp above the stable timestamp, stop
transaction not visible, or prepared) while its start side is stable, and
whose start and stop time points are not identical,
`__rollback_abort_ondisk_kv` resurrects the removed value: it produces a
STANDARD update carrying the on-disk value with the on-disk start timestamp,
durable start timestamp and start transaction id (scrubbed to `WT_TXN_NONE`
under recovery), tagged `WT_UPDATE_RESTORED_FROM_DS`. -/
theorem rts_c8_resurrect_stop_unstable (inMemory : Bool) (c : ConnSnapshot)
    (ts : Nat) (vpack : CellUnpackKV)
    (hstop : twHasStop vpack.tw = true)
    (hunstable : ts < vpack.tw.durable_stop_ts ∨
      rollbackTxnVisibleId c vpack.tw.stop_txn = false ∨ vpack.tw.prepare = true)
    (hds : vpack.tw.durable_start_ts ≤ ts)
    (hvis : rollbackTxnVisibleId c vpack.tw.start_txn = true)
    (hne : ¬(vpack.tw.start_ts = vpack.tw.stop_ts ∧
      vpack.tw.durable_start_ts = vpack.tw.durable_stop_ts ∧
      vpack.tw.start_txn = vpack.tw.stop_txn)) :
    rollbackAbortOndiskKv false inMemory c ts vpack =
      OndiskKvAction.restore
        (Update.mk UpdateType.standard vpack.value
          (if c.recovering then WT_TXN_NONE else vpack.tw.start_txn)
          vpack.tw.start_ts vpack.tw.durable_start_ts PrepareState.init
          (UpdateFlags.mk false false true)) := by
  have hc1 : (decide (ts < vpack.tw.durable_start_ts) ||
      !rollbackTxnVisibleId c vpack.tw.start_txn ||
      (!twHasStop vpack.tw && vpack.tw.prepare)) = false := by
    simp [hstop, hvis, Nat.not_lt.mpr hds]
  have hc2 : (twHasStop vpack.tw &&
      (decide (ts < vpack.tw.durable_stop_ts) ||
        !rollbackTxnVisibleId c vpack.tw.stop_txn || vpack.tw.prepare)) = true := by
    rcases hunstable with h | h | h
    · simp [hstop, h]
    · simp [hstop, h]
    · simp [hstop, h]
  simp [rollbackAbortOndiskKv, hc1, hc2, hne]

/-- Witness for C8: a concrete stable-start cell deleted at an unstable stop
timestamp (durable stop 150 > 100) is resurrected as a `RESTORED_FROM_DS`
STANDARD update carrying the on-disk value and start time point. -/
theorem rts_c8_witness :
    rollbackAbortOndiskKv false false (ConnSnapshot.mk false 0 0 []) 100
        (CellUnpackKV.mk (TimeWindow.mk 80 80 9 150 150 11 false) 42) =
      OndiskKvAction.restore
        (Update.mk UpdateType.standard 42 9 80 80 PrepareState.init
          (UpdateFlags.mk false false true)) := by
  have h := rts_c8_resurrect_stop_unstable false (ConnSnapshot.mk false 0 0 []) 100
    (CellUnpackKV.mk (TimeWindow.mk 80 80 9 150 150 11 false) 42)
    (by decide) (Or.inl (by decide)) (by decide) rfl (by decide)
  exact h

/-! ### `__rollback_abort_fast_truncate` (C9) -/

/-- C9.  During internal-page processing, `__rollback_abort_fast_truncate`
rolls back exactly the child refs in DELETED state whose fast-truncate
descriptor has a durable timestamp above the stable timestamp (the rollback,
per the spec, restores the child's visibility, taking the ref out of the
DELETED state), and leaves every other child untouched; consequently every
ref still in DELETED state carrying a descriptor afterwards has a durable
timestamp at or below the stable timestamp. -/
theorem rts_c9_fast_truncate (ts : Nat) (children : List ChildRef) :
    (rollbackAbortFastTruncate ts children).length = children.length ∧
    (∀ i : Nat, ∀ r, children[i]? = some r → r.state = RefState.deleted →
      ∀ d, r.del = some d → ts < d.durable_timestamp →
        (rollbackAbortFastTruncate ts children)[i]? = some (wtDeletePageRollback r)) ∧
    (∀ i : Nat, ∀ r, children[i]? = some r → fastTruncateNeedsRollback ts r = false →
      (rollbackAbortFastTruncate ts children)[i]? = some r) ∧
    (∀ r ∈ rollbackAbortFastTruncate ts children, r.state = RefState.deleted →
      ∀ d, r.del = some d → d.durable_timestamp ≤ ts) := by
  refine ⟨by simp [rollbackAbortFastTruncate], ?_, ?_, ?_⟩
  · intro i r hi hst d hd hts
    have hcond : fastTruncateNeedsRollback ts r = true := by
      simp [fastTruncateNeedsRollback, hst, hd, hts]
    simp [rollbackAbortFastTruncate, List.getElem?_map, hi, hcond]
  · intro i r hi hcond
    simp [rollbackAbortFastTruncate, List.getElem?_map, hi, hcond]
  · intro r hr hst d hd
    obtain ⟨r0, hr0, heq⟩ := List.mem_map.mp hr
    by_cases hc : fastTruncateNeedsRollback ts r0 = true
    · rw [if_pos hc] at heq
      subst heq
      cases hst
    · rw [if_neg (by simpa using hc)] at heq
      subst heq
      by_contra hgt
      apply hc
      simp [fastTruncateNeedsRollback, hst, hd, Nat.lt_of_not_le hgt]

/-- Witness for C9: of two deleted children (durable timestamps 130 and 80
against stable timestamp 100) exactly the first is rolled back, and in the
result every surviving DELETED descriptor is at or below 100. -/
theorem rts_c9_witness :
    (rollbackAbortFastTruncate 100
        [ChildRef.mk RefState.deleted (some (PageDel.mk 130)),
         ChildRef.mk RefState.deleted (some (PageDel.mk 80))])[0]? =
      some (wtDeletePageRollback (ChildRef.mk RefState.deleted (some (PageDel.mk 130)))) ∧
    (rollbackAbortFastTruncate 100
        [ChildRef.mk RefState.deleted (some (PageDel.mk 130)),
         ChildRef.mk RefState.deleted (some (PageDel.mk 80))])[1]? =
      some (ChildRef.mk RefState.deleted (some (PageDel.mk 80))) := by
  obtain ⟨-, h2, h3, -⟩ := rts_c9_fast_truncate 100
    [ChildRef.mk RefState.deleted (some (PageDel.mk 130)),
     ChildRef.mk RefState.deleted (some (PageDel.mk 80))]
  refine ⟨?_, ?_⟩
  · exact h2 0 (ChildRef.mk RefState.deleted (some (PageDel.mk 130))) rfl rfl
      (PageDel.mk 130) rfl (by decide)
  · exact h3 1 (ChildRef.mk RefState.deleted (some (PageDel.mk 80))) rfl (by decide)

/-! ### Properties of `__rollback_abort_update` (C1, C4, C10) -/

theorem updStable_false_of_aborted {ts : Nat} {u : Update}
    (h : u.txnid = WT_TXN_ABORTED) : updStable ts u = false := by
  simp [updStable, h]

theorem updStable_false_of_unstable {ts : Nat} {u : Update}
    (h : ts < u.durable_ts ∨ u.prepare_state = PrepareState.inprogress) :
    updStable ts u = false := by
  rcases h with h | h
  · simp [updStable, Nat.not_le.mpr h]
  · simp [updStable, h]

theorem updStable_true_of_stable {ts : Nat} {u : Update}
    (h1 : ¬u.txnid = WT_TXN_ABORTED)
    (h2 : ¬(ts < u.durable_ts ∨ u.prepare_state = PrepareState.inprogress)) :
    updStable ts u = true := by
  push_neg at h2
  simp [updStable, h1, h2.1, h2.2]

/-- The prefix transformation the scan loop performs: already-aborted updates
are kept, everything else it passes is aborted. -/
def abortMap (u : Update) : Update :=
  if u.txnid = WT_TXN_ABORTED then u else abortUpd u

theorem abortScan_none (ts : Nat) :
    ∀ (chain pre : List Update), abortScan ts chain = (pre, none) →
      pre = chain.map abortMap ∧ ∀ u ∈ chain, updStable ts u = false
  | [], pre, h => by
    injection h with hpre _
    subst hpre
    exact ⟨rfl, fun u hu => absurd hu (List.not_mem_nil u)⟩
  | u :: rest, pre, h => by
    simp only [abortScan] at h
    by_cases h1 : u.txnid = WT_TXN_ABORTED
    · rw [if_pos h1] at h
      injection h with hpre hnone
      obtain ⟨hmap, hall⟩ := abortScan_none ts rest (abortScan ts rest).1
        (by rw [← hnone])
      subst hpre
      refine ⟨by rw [hmap]; simp [abortMap, h1], ?_⟩
      intro v hv
      rcases List.mem_cons.mp hv with rfl | hv
      · exact updStable_false_of_aborted h1
      · exact hall v hv
    · rw [if_neg h1] at h
      by_cases h2 : ts < u.durable_ts ∨ u.prepare_state = PrepareState.inprogress
      · rw [if_pos h2] at h
        injection h with hpre hnone
        obtain ⟨hmap, hall⟩ := abortScan_none ts rest (abortScan ts rest).1
          (by rw [← hnone])
        subst hpre
        refine ⟨by rw [hmap]; simp [abortMap, h1], ?_⟩
        intro v hv
        rcases List.mem_cons.mp hv with rfl | hv
        · exact updStable_false_of_unstable h2
        · exact hall v hv
      · rw [if_neg h2] at h
        injection h with _ hnone
        exact Option.noConfusion hnone

theorem abortScan_some (ts : Nat) :
    ∀ (chain pre : List Update) (st : Update) (rest : List Update),
      abortScan ts chain = (pre, some (st, rest)) →
      ∃ p0 : List Update, chain = p0 ++ st :: rest ∧ pre = p0.map abortMap ∧
        (∀ u ∈ p0, updStable ts u = false) ∧ updStable ts st = true
  | [], pre, st, rest, h => by
    injection h with _ hsome
    exact Option.noConfusion hsome
  | u :: tl, pre, st, rest, h => by
    simp only [abortScan] at h
    by_cases h1 : u.txnid = WT_TXN_ABORTED
    · rw [if_pos h1] at h
      injection h with hpre hsome
      obtain ⟨p0, hdec, hmap, hall, hst⟩ := abortScan_some ts tl (abortScan ts tl).1 st rest
        (by rw [← hsome])
      refine ⟨u :: p0, by rw [hdec]; rfl, ?_, ?_, hst⟩
      · rw [← hpre, hmap]
        simp [abortMap, h1]
      · intro v hv
        rcases List.mem_cons.mp hv with rfl | hv
        · exact updStable_false_of_aborted h1
        · exact hall v hv
    · rw [if_neg h1] at h
      by_cases h2 : ts < u.durable_ts ∨ u.prepare_state = PrepareState.inprogress
      · rw [if_pos h2] at h
        injection h with hpre hsome
        obtain ⟨p0, hdec, hmap, hall, hst⟩ := abortScan_some ts tl (abortScan ts tl).1 st rest
          (by rw [← hsome])
        refine ⟨u :: p0, by rw [hdec]; rfl, ?_, ?_, hst⟩
        · rw [← hpre, hmap]
          simp [abortMap, h1]
        · intro v hv
          rcases List.mem_cons.mp hv with rfl | hv
          · exact updStable_false_of_unstable h2
          · exact hall v hv
      · rw [if_neg h2] at h
        injection h with hpre hsome
        simp only [Option.some.injEq, Prod.mk.injEq] at hsome
        obtain ⟨rfl, rfl⟩ : u = st ∧ tl = rest := hsome
        exact ⟨[], rfl, hpre.symm,
          (fun v hv => absurd hv (List.not_mem_nil v)),
          updStable_true_of_stable h1 h2⟩

theorem findIdx_eq_length_of_all_false (p : Update → Bool) :
    ∀ l : List Update, (∀ u ∈ l, p u = false) → l.findIdx p = l.length
  | [], _ => rfl
  | u :: tl, h => by
    have hu : p u = false := h u (List.mem_cons_self u _)
    rw [List.findIdx_cons p u tl, hu]
    simp only [cond_false, List.length_cons]
    rw [findIdx_eq_length_of_all_false p tl (fun v hv => h v (List.mem_cons_of_mem u hv))]

theorem findIdx_decomp (p : Update → Bool) (st : Update) (rest : List Update)
    (hst : p st = true) :
    ∀ p0 : List Update, (∀ u ∈ p0, p u = false) →
      (p0 ++ st :: rest).findIdx p = p0.length
  | [], _ => by simp [List.findIdx_cons, hst]
  | u :: tl, h => by
    have hu : p u = false := h u (List.mem_cons_self u _)
    simp only [List.cons_append, List.findIdx_cons, hu, cond_false, List.length_cons]
    rw [findIdx_decomp p st rest hst tl (fun v hv => h v (List.mem_cons_of_mem u hv))]

theorem clearHSFirstNonAborted_length :
    ∀ l : List Update, (clearHSFirstNonAborted l).length = l.length
  | [] => rfl
  | v :: vs => by
    by_cases h : v.txnid = WT_TXN_ABORTED
    · simp [clearHSFirstNonAborted, h, clearHSFirstNonAborted_length vs]
    · simp [clearHSFirstNonAborted, h]

theorem clearHSFirstNonAborted_getElem? :
    ∀ (l : List Update) (i : Nat) (u : Update), l[i]? = some u →
      (clearHSFirstNonAborted l)[i]? = some u ∨
      ((clearHSFirstNonAborted l)[i]? = some (clearHS u) ∧ u.txnid ≠ WT_TXN_ABORTED ∧
        ∀ j : Nat, ∀ v, l[j]? = some v → j < i → v.txnid = WT_TXN_ABORTED)
  | [], i, u, h => by simp at h
  | a :: vs, i, u, h => by
    by_cases ha : a.txnid = WT_TXN_ABORTED
    · match i with
      | 0 =>
        simp only [List.getElem?_cons_zero, Option.some.injEq] at h
        subst h
        left
        simp [clearHSFirstNonAborted, ha]
      | n + 1 =>
        simp only [List.getElem?_cons_succ] at h
        rcases clearHSFirstNonAborted_getElem? vs n u h with hl | ⟨hr, hna, hall⟩
        · left
          simp [clearHSFirstNonAborted, ha, hl]
        · right
          refine ⟨by simp [clearHSFirstNonAborted, ha, hr], hna, ?_⟩
          intro j v hj _
          match j with
          | 0 =>
            simp only [List.getElem?_cons_zero, Option.some.injEq] at hj
            subst hj
            exact ha
          | m + 1 =>
            simp only [List.getElem?_cons_succ] at hj
            exact hall m v hj (by omega)
    · match i with
      | 0 =>
        simp only [List.getElem?_cons_zero, Option.some.injEq] at h
        subst h
        right
        refine ⟨by simp [clearHSFirstNonAborted, ha], ha, ?_⟩
        intro j v _ hj
        omega
      | n + 1 =>
        simp only [List.getElem?_cons_succ] at h
        left
        simp [clearHSFirstNonAborted, ha, h]

theorem findFirstNonAborted_some :
    ∀ (l : List Update) (v : Update), findFirstNonAborted l = some v →
      ∃ i : Nat, l[i]? = some v ∧ v.txnid ≠ WT_TXN_ABORTED ∧
        ∀ j : Nat, ∀ w, l[j]? = some w → j < i → w.txnid = WT_TXN_ABORTED
  | [], v, h => by cases h
  | a :: vs, v, h => by
    simp only [findFirstNonAborted] at h
    by_cases ha : a.txnid = WT_TXN_ABORTED
    · rw [if_pos ha] at h
      obtain ⟨i, hi, hna, hall⟩ := findFirstNonAborted_some vs v h
      refine ⟨i + 1, by simpa using hi, hna, ?_⟩
      intro j w hj hlt
      match j with
      | 0 =>
        simp only [List.getElem?_cons_zero, Option.some.injEq] at hj
        subst hj
        exact ha
      | m + 1 =>
        simp only [List.getElem?_cons_succ] at hj
        exact hall m w hj (by omega)
    · rw [if_neg ha] at h
      injection h with h
      subst h
      exact ⟨0, by simp, ha, by intro j w _ hj; omega⟩

theorem findFirstNonAborted_none :
    ∀ l : List Update, findFirstNonAborted l = none →
      ∀ v ∈ l, v.txnid = WT_TXN_ABORTED
  | [], _, v, hv => by cases hv
  | a :: vs, h, v, hv => by
    simp only [findFirstNonAborted] at h
    by_cases ha : a.txnid = WT_TXN_ABORTED
    · rw [if_pos ha] at h
      rcases List.mem_cons.mp hv with rfl | hv
      · exact ha
      · exact findFirstNonAborted_none vs h v hv
    · rw [if_neg ha] at h
      cases h

theorem rollbackDeleteHs_sorted (ts : Nat) :
    ∀ hs : List HsDelEntry, hs.Pairwise (fun a b => b.start_ts ≤ a.start_ts) →
      rollbackDeleteHs ts hs = hs.filter (fun e => decide (e.start_ts < ts))
  | [], _ => rfl
  | e :: rest, h => by
    rw [List.pairwise_cons] at h
    by_cases he : e.start_ts < ts
    · simp only [rollbackDeleteHs, he, if_pos, List.filter_cons,
        decide_eq_true_eq, if_pos he]
      rw [List.filter_eq_self.mpr]
      intro b hb
      exact decide_eq_true (Nat.lt_of_le_of_lt (h.1 b hb) he)
    · simp only [rollbackDeleteHs, he, if_neg, List.filter_cons,
        decide_eq_true_eq, if_neg he]
      exact rollbackDeleteHs_sorted ts rest h.2

theorem getElem?_append_cons_lt {α : Type} (A : List α) (b : α) (C : List α)
    {i : Nat} (h : i < A.length) : (A ++ b :: C)[i]? = A[i]? := by
  rw [List.getElem?_append]
  rw [if_pos h]

theorem getElem?_append_cons_eq {α : Type} (A : List α) (b : α) (C : List α) :
    (A ++ b :: C)[A.length]? = some b := by
  rw [List.getElem?_append_right (Nat.le_refl A.length)]
  simp

theorem getElem?_append_cons_gt {α : Type} (A : List α) (b : α) (C : List α)
    {i : Nat} (h : A.length < i) : (A ++ b :: C)[i]? = C[i - A.length - 1]? := by
  rw [List.getElem?_append_right (Nat.le_of_lt h)]
  obtain ⟨m, hm⟩ : ∃ m, i - A.length = m + 1 := ⟨i - A.length - 1, by omega⟩
  rw [hm]
  simp only [List.getElem?_cons_succ]
  simp

/-- Shape of the chain produced by `__rollback_abort_update` when its scan
stopped at a stable update: the processed prefix, then the stable update
(with its HS flag possibly cleared), then the tail in which at most the first
non-aborted update lost its HS flag. -/
theorem abortUpdate_chain_shape (ts : Nat) (chain : List Update)
    (hs : List HsDelEntry) (pre : List Update) (st : Update) (rest : List Update)
    (habs : abortScan ts chain = (pre, some (st, rest))) :
    (rollbackAbortUpdate ts chain hs).stableUpdateFound = true ∧
    ∃ X : Update, ∃ Y : List Update,
      (rollbackAbortUpdate ts chain hs).chain = pre ++ X :: Y ∧
      (X = st ∨ (X = clearHS st ∧ st.flags.hs = true)) ∧
      Y.length = rest.length ∧
      (∀ i : Nat, ∀ u, rest[i]? = some u →
        Y[i]? = some u ∨
        (Y[i]? = some (clearHS u) ∧ u.txnid ≠ WT_TXN_ABORTED ∧ st.flags.hs = true ∧
          st.type = UpdateType.tombstone ∧
          ∀ j : Nat, ∀ v, rest[j]? = some v → j < i → v.txnid = WT_TXN_ABORTED)) := by
  by_cases hhs : st.flags.hs = true
  · by_cases htype : st.type = UpdateType.tombstone
    · refine ⟨?_, clearHS st, clearHSFirstNonAborted rest, ?_, Or.inr ⟨rfl, hhs⟩,
        clearHSFirstNonAborted_length rest, ?_⟩
      · simp only [rollbackAbortUpdate, habs]
        rw [if_pos hhs, if_pos htype]
      · simp only [rollbackAbortUpdate, habs]
        rw [if_pos hhs, if_pos htype]
      · intro i u hi
        rcases clearHSFirstNonAborted_getElem? rest i u hi with hl | ⟨hr, hna, hall⟩
        · exact Or.inl hl
        · exact Or.inr ⟨hr, hna, hhs, htype, hall⟩
    · refine ⟨?_, clearHS st, rest, ?_, Or.inr ⟨rfl, hhs⟩, rfl, fun i u hi => Or.inl hi⟩
      · simp only [rollbackAbortUpdate, habs]
        rw [if_pos hhs, if_neg htype]
      · simp only [rollbackAbortUpdate, habs]
        rw [if_pos hhs, if_neg htype]
  · refine ⟨?_, st, rest, ?_, Or.inl rfl, rfl, fun i u hi => Or.inl hi⟩
    · simp only [rollbackAbortUpdate, habs]
      rw [if_neg hhs]
    · simp only [rollbackAbortUpdate, habs]
      rw [if_neg hhs]

/-- C1.  `__rollback_abort_update` walks the chain from the head: updates
already marked aborted are skipped (left in place), every non-aborted update
before the first stable one is aborted by the triple assignment `abortUpd`
(txnid to `WT_TXN_ABORTED`, durable and start timestamps to 0), the walk
stops at the first update that is neither aborted nor unstable (index
`chain.findIdx (updStable ts)`), from which point on no update's txnid or
timestamps change, and `stable_update_found` reports precisely whether a
stable update exists in the chain. -/
theorem rts_c1_abort_chain (ts : Nat) (chain : List Update) (hs : List HsDelEntry) :
    ((rollbackAbortUpdate ts chain hs).stableUpdateFound = true ↔
      ∃ u ∈ chain, updStable ts u = true) ∧
    (rollbackAbortUpdate ts chain hs).chain.length = chain.length ∧
    (∀ i : Nat, ∀ u, chain[i]? = some u → i < chain.findIdx (updStable ts) →
      (u.txnid = WT_TXN_ABORTED → (rollbackAbortUpdate ts chain hs).chain[i]? = some u) ∧
      (u.txnid ≠ WT_TXN_ABORTED →
        (rollbackAbortUpdate ts chain hs).chain[i]? = some (abortUpd u))) ∧
    (∀ i : Nat, ∀ u, chain[i]? = some u → chain.findIdx (updStable ts) ≤ i →
      ∃ u', (rollbackAbortUpdate ts chain hs).chain[i]? = some u' ∧
        u'.txnid = u.txnid ∧ u'.durable_ts = u.durable_ts ∧
        u'.start_ts = u.start_ts) := by
  rcases habs : abortScan ts chain with ⟨pre, stOpt⟩
  cases stOpt with
  | none =>
    obtain ⟨hmap, hall⟩ := abortScan_none ts chain pre habs
    have hk : chain.findIdx (updStable ts) = chain.length :=
      findIdx_eq_length_of_all_false (updStable ts) chain hall
    have hchain : (rollbackAbortUpdate ts chain hs).chain = chain.map abortMap := by
      simp only [rollbackAbortUpdate, habs]
      exact hmap
    refine ⟨?_, ?_, ?_, ?_⟩
    · constructor
      · intro hfalse
        simp only [rollbackAbortUpdate, habs] at hfalse
        exact absurd hfalse (by simp)
      · rintro ⟨u, hu, hstu⟩
        rw [hall u hu] at hstu
        cases hstu
    · rw [hchain, List.length_map]
    · intro i u hi _
      have : (rollbackAbortUpdate ts chain hs).chain[i]? = some (abortMap u) := by
        rw [hchain, List.getElem?_map, hi]
        rfl
      constructor
      · intro hab
        rw [this]
        simp [abortMap, hab]
      · intro hab
        rw [this]
        simp [abortMap, hab]
    · intro i u hi hlt
      have hlen : i < chain.length := (List.getElem?_eq_some.mp hi).1
      omega
  | some p =>
    rcases p with ⟨st, rest⟩
    obtain ⟨p0, hdec, hmapp, hallp, hstp⟩ := abortScan_some ts chain pre st rest habs
    obtain ⟨hfound, X, Y, hchain, hX, hYlen, hYget⟩ :=
      abortUpdate_chain_shape ts chain hs pre st rest habs
    have hk : chain.findIdx (updStable ts) = p0.length := by
      rw [hdec]
      exact findIdx_decomp (updStable ts) st rest hstp p0 hallp
    have hprelen : pre.length = p0.length := by rw [hmapp, List.length_map]
    have hXfields : X.txnid = st.txnid ∧ X.durable_ts = st.durable_ts ∧
        X.start_ts = st.start_ts := by
      rcases hX with rfl | ⟨rfl, -⟩
      · exact ⟨rfl, rfl, rfl⟩
      · exact ⟨rfl, rfl, rfl⟩
    refine ⟨?_, ?_, ?_, ?_⟩
    · constructor
      · intro _
        refine ⟨st, ?_, hstp⟩
        rw [hdec]
        exact List.mem_append_right p0 (List.mem_cons_self st rest)
      · intro _
        exact hfound
    · rw [hchain, hdec]
      simp [hprelen, hYlen]
    · intro i u hi hlt
      rw [hk] at hlt
      have hchaini : p0[i]? = some u := by
        rw [hdec] at hi
        rw [← getElem?_append_cons_lt p0 st rest hlt]
        exact hi
      have hpre : pre[i]? = some (abortMap u) := by
        rw [hmapp, List.getElem?_map, hchaini]
        rfl
      have hout : (rollbackAbortUpdate ts chain hs).chain[i]? = some (abortMap u) := by
        rw [hchain, getElem?_append_cons_lt pre X Y (by omega), hpre]
      constructor
      · intro hab
        rw [hout]
        simp [abortMap, hab]
      · intro hab
        rw [hout]
        simp [abortMap, hab]
    · intro i u hi hge
      rw [hk] at hge
      rcases Nat.eq_or_lt_of_le hge with heq | hgt
      · have hu : u = st := by
          rw [hdec, ← heq] at hi
          rw [getElem?_append_cons_eq p0 st rest] at hi
          exact (Option.some.injEq _ _ ▸ hi).symm
        subst hu
        refine ⟨X, ?_, hXfields.1, hXfields.2.1, hXfields.2.2⟩
        rw [hchain, ← heq, ← hprelen]
        exact getElem?_append_cons_eq pre X Y
      · have hresti : rest[i - p0.length - 1]? = some u := by
          rw [hdec] at hi
          rw [← getElem?_append_cons_gt p0 st rest hgt]
          exact hi
        rcases hYget (i - p0.length - 1) u hresti with hl | ⟨hr, -, -, -, -⟩
        · refine ⟨u, ?_, rfl, rfl, rfl⟩
          rw [hchain, getElem?_append_cons_gt pre X Y (by omega), hprelen]
          exact hl
        · refine ⟨clearHS u, ?_, rfl, rfl, rfl⟩
          rw [hchain, getElem?_append_cons_gt pre X Y (by omega), hprelen]
          exact hr

theorem updStable_ne_aborted {ts : Nat} {u : Update} (h : updStable ts u = true) :
    u.txnid ≠ WT_TXN_ABORTED := by
  intro hab
  rw [updStable_false_of_aborted hab] at h
  cases h

/-- Witness for C1: a chain with one unstable update (durable 150 > 100) over
one stable update (durable 90); the head is aborted, the walk stops, a stable
update is reported. -/
theorem rts_c1_witness :
    (rollbackAbortUpdate 100
      [Update.mk UpdateType.standard 3 7 150 150 PrepareState.init
        (UpdateFlags.mk false false false),
       Update.mk UpdateType.standard 2 5 90 90 PrepareState.init
        (UpdateFlags.mk false false false)]
      [HsDelEntry.mk 90 0]).stableUpdateFound = true ∧
    (rollbackAbortUpdate 100
      [Update.mk UpdateType.standard 3 7 150 150 PrepareState.init
        (UpdateFlags.mk false false false),
       Update.mk UpdateType.standard 2 5 90 90 PrepareState.init
        (UpdateFlags.mk false false false)]
      [HsDelEntry.mk 90 0]).chain[0]? =
      some (abortUpd (Update.mk UpdateType.standard 3 7 150 150 PrepareState.init
        (UpdateFlags.mk false false false))) ∧
    (rollbackAbortUpdate 100
      [Update.mk UpdateType.standard 3 7 150 150 PrepareState.init
        (UpdateFlags.mk false false false),
       Update.mk UpdateType.standard 2 5 90 90 PrepareState.init
        (UpdateFlags.mk false false false)]
      [HsDelEntry.mk 90 0]).chain.length = 2 := by
  obtain ⟨h1, h2, h3, -⟩ := rts_c1_abort_chain 100
    [Update.mk UpdateType.standard 3 7 150 150 PrepareState.init
      (UpdateFlags.mk false false false),
     Update.mk UpdateType.standard 2 5 90 90 PrepareState.init
      (UpdateFlags.mk false false false)]
    [HsDelEntry.mk 90 0]
  refine ⟨?_, ?_, ?_⟩
  · refine h1.mpr ⟨Update.mk UpdateType.standard 2 5 90 90 PrepareState.init
      (UpdateFlags.mk false false false), by simp, by decide⟩
  · exact (h3 0 (Update.mk UpdateType.standard 3 7 150 150 PrepareState.init
      (UpdateFlags.mk false false false)) (by simp) (by decide)).2 (by decide)
  · simpa using h2

/-- C10.  The frame of `__rollback_abort_update`: the chain keeps its length
and order (no update is unlinked); every update keeps its kind, value,
prepare state and provenance flags, and is either untouched, aborted (the
three-field assignment `abortUpd`) or merely stripped of its HS flag; before
the stop index every update is pinned exactly — kept untouched when already
aborted, otherwise turned into `abortUpd` of itself, which changes only
txnid, durable and start timestamps and leaves all flags (the HS flag
included) intact; updates already marked aborted are untouched everywhere;
after the stop index only the HS flag can change, and only on the stable
update itself or — when the stable update is a tombstone carrying the HS
flag — on the first non-aborted update behind it. -/
theorem rts_c10_abort_frame (ts : Nat) (chain : List Update) (hs : List HsDelEntry) :
    (rollbackAbortUpdate ts chain hs).chain.length = chain.length ∧
    (∀ i : Nat, ∀ u, chain[i]? = some u →
      ∃ u', (rollbackAbortUpdate ts chain hs).chain[i]? = some u' ∧
        u'.type = u.type ∧ u'.value = u.value ∧ u'.prepare_state = u.prepare_state ∧
        u'.flags.restoredFromHs = u.flags.restoredFromHs ∧
        u'.flags.restoredFromDs = u.flags.restoredFromDs ∧
        (u' = u ∨ u' = abortUpd u ∨ u' = clearHS u)) ∧
    (∀ i : Nat, ∀ u, chain[i]? = some u → i < chain.findIdx (updStable ts) →
      (u.txnid = WT_TXN_ABORTED → (rollbackAbortUpdate ts chain hs).chain[i]? = some u) ∧
      (u.txnid ≠ WT_TXN_ABORTED →
        (rollbackAbortUpdate ts chain hs).chain[i]? = some (abortUpd u))) ∧
    (∀ i : Nat, ∀ u, chain[i]? = some u → u.txnid = WT_TXN_ABORTED →
      (rollbackAbortUpdate ts chain hs).chain[i]? = some u) ∧
    (∀ i : Nat, ∀ u, chain[i]? = some u → chain.findIdx (updStable ts) < i →
      ((rollbackAbortUpdate ts chain hs).chain[i]? = some u ∨
        ((rollbackAbortUpdate ts chain hs).chain[i]? = some (clearHS u) ∧
          u.txnid ≠ WT_TXN_ABORTED ∧
          (∀ j : Nat, ∀ v, chain[j]? = some v →
            chain.findIdx (updStable ts) < j → j < i → v.txnid = WT_TXN_ABORTED) ∧
          ∃ st, chain[chain.findIdx (updStable ts)]? = some st ∧
            st.type = UpdateType.tombstone ∧ st.flags.hs = true))) ∧
    (∀ u, chain[chain.findIdx (updStable ts)]? = some u →
      (rollbackAbortUpdate ts chain hs).chain[chain.findIdx (updStable ts)]? = some u ∨
      ((rollbackAbortUpdate ts chain hs).chain[chain.findIdx (updStable ts)]? =
        some (clearHS u) ∧ u.flags.hs = true)) := by
  rcases habs : abortScan ts chain with ⟨pre, stOpt⟩
  cases stOpt with
  | none =>
    obtain ⟨hmap, hall⟩ := abortScan_none ts chain pre habs
    have hk : chain.findIdx (updStable ts) = chain.length :=
      findIdx_eq_length_of_all_false (updStable ts) chain hall
    have hchain : (rollbackAbortUpdate ts chain hs).chain = chain.map abortMap := by
      simp only [rollbackAbortUpdate, habs]
      exact hmap
    refine ⟨by rw [hchain, List.length_map], ?_, ?_, ?_, ?_, ?_⟩
    · intro i u hi
      have hout : (rollbackAbortUpdate ts chain hs).chain[i]? = some (abortMap u) := by
        rw [hchain, List.getElem?_map, hi]
        rfl
      by_cases hab : u.txnid = WT_TXN_ABORTED
      · exact ⟨u, by rwa [show abortMap u = u by simp [abortMap, hab]] at hout,
          rfl, rfl, rfl, rfl, rfl, Or.inl rfl⟩
      · exact ⟨abortUpd u,
          by rwa [show abortMap u = abortUpd u by simp [abortMap, hab]] at hout,
          rfl, rfl, rfl, rfl, rfl, Or.inr (Or.inl rfl)⟩
    · intro i u hi _
      have hout : (rollbackAbortUpdate ts chain hs).chain[i]? = some (abortMap u) := by
        rw [hchain, List.getElem?_map, hi]
        rfl
      constructor
      · intro hab
        rwa [show abortMap u = u by simp [abortMap, hab]] at hout
      · intro hab
        rwa [show abortMap u = abortUpd u by simp [abortMap, hab]] at hout
    · intro i u hi hab
      have hout : (rollbackAbortUpdate ts chain hs).chain[i]? = some (abortMap u) := by
        rw [hchain, List.getElem?_map, hi]
        rfl
      rwa [show abortMap u = u by simp [abortMap, hab]] at hout
    · intro i u hi hlt
      have hlen : i < chain.length := (List.getElem?_eq_some.mp hi).1
      omega
    · intro u hu
      have hlen : chain.findIdx (updStable ts) < chain.length :=
        (List.getElem?_eq_some.mp hu).1
      omega
  | some p =>
    rcases p with ⟨st, rest⟩
    obtain ⟨p0, hdec, hmapp, hallp, hstp⟩ := abortScan_some ts chain pre st rest habs
    obtain ⟨hfound, X, Y, hchain, hX, hYlen, hYget⟩ :=
      abortUpdate_chain_shape ts chain hs pre st rest habs
    have hk : chain.findIdx (updStable ts) = p0.length := by
      rw [hdec]
      exact findIdx_decomp (updStable ts) st rest hstp p0 hallp
    have hprelen : pre.length = p0.length := by rw [hmapp, List.length_map]
    have hstk : chain[chain.findIdx (updStable ts)]? = some st := by
      rw [hk, hdec]
      exact getElem?_append_cons_eq p0 st rest
    have houtk : (rollbackAbortUpdate ts chain hs).chain[chain.findIdx (updStable ts)]? =
        some X := by
      rw [hk, hchain, ← hprelen]
      exact getElem?_append_cons_eq pre X Y
    refine ⟨?_, ?_, ?_, ?_, ?_, ?_⟩
    · rw [hchain, hdec]
      simp [hprelen, hYlen]
    · intro i u hi
      rcases Nat.lt_trichotomy i p0.length with hlt | heq | hgt
      · have hchaini : p0[i]? = some u := by
          rw [hdec] at hi
          rw [← getElem?_append_cons_lt p0 st rest hlt]
          exact hi
        have hout : (rollbackAbortUpdate ts chain hs).chain[i]? = some (abortMap u) := by
          rw [hchain, getElem?_append_cons_lt pre X Y (by omega), hmapp,
            List.getElem?_map, hchaini]
          rfl
        by_cases hab : u.txnid = WT_TXN_ABORTED
        · exact ⟨u, by rwa [show abortMap u = u by simp [abortMap, hab]] at hout,
            rfl, rfl, rfl, rfl, rfl, Or.inl rfl⟩
        · exact ⟨abortUpd u,
            by rwa [show abortMap u = abortUpd u by simp [abortMap, hab]] at hout,
            rfl, rfl, rfl, rfl, rfl, Or.inr (Or.inl rfl)⟩
      · have hu : u = st := by
          rw [hdec, heq] at hi
          rw [getElem?_append_cons_eq p0 st rest] at hi
          exact (Option.some.injEq _ _ ▸ hi).symm
        have hout : (rollbackAbortUpdate ts chain hs).chain[i]? = some X := by
          rw [← houtk, hk, heq]
        rw [hu]
        rcases hX with hX1 | ⟨hX1, -⟩
        · exact ⟨X, hout, by rw [hX1], by rw [hX1], by rw [hX1], by rw [hX1],
            by rw [hX1], Or.inl hX1⟩
        · exact ⟨X, hout, by simp [hX1, clearHS], by simp [hX1, clearHS],
            by simp [hX1, clearHS], by simp [hX1, clearHS],
            by simp [hX1, clearHS], Or.inr (Or.inr hX1)⟩
      · have hresti : rest[i - p0.length - 1]? = some u := by
          rw [hdec] at hi
          rw [← getElem?_append_cons_gt p0 st rest hgt]
          exact hi
        rcases hYget (i - p0.length - 1) u hresti with hl | ⟨hr, -, -, -, -⟩
        · refine ⟨u, ?_, rfl, rfl, rfl, rfl, rfl, Or.inl rfl⟩
          rw [hchain, getElem?_append_cons_gt pre X Y (by omega), hprelen]
          exact hl
        · refine ⟨clearHS u, ?_, rfl, rfl, rfl, rfl, rfl, Or.inr (Or.inr rfl)⟩
          rw [hchain, getElem?_append_cons_gt pre X Y (by omega), hprelen]
          exact hr
    · intro i u hi hlt
      rw [hk] at hlt
      have hchaini : p0[i]? = some u := by
        rw [hdec] at hi
        rw [← getElem?_append_cons_lt p0 st rest hlt]
        exact hi
      have hout : (rollbackAbortUpdate ts chain hs).chain[i]? = some (abortMap u) := by
        rw [hchain, getElem?_append_cons_lt pre X Y (by omega), hmapp,
          List.getElem?_map, hchaini]
        rfl
      constructor
      · intro hab
        rwa [show abortMap u = u by simp [abortMap, hab]] at hout
      · intro hab
        rwa [show abortMap u = abortUpd u by simp [abortMap, hab]] at hout
    · intro i u hi hab
      rcases Nat.lt_trichotomy i p0.length with hlt | heq | hgt
      · have hchaini : p0[i]? = some u := by
          rw [hdec] at hi
          rw [← getElem?_append_cons_lt p0 st rest hlt]
          exact hi
        rw [hchain, getElem?_append_cons_lt pre X Y (by omega), hmapp,
          List.getElem?_map, hchaini]
        simp [abortMap, hab]
      · have hu : u = st := by
          rw [hdec, heq] at hi
          rw [getElem?_append_cons_eq p0 st rest] at hi
          exact (Option.some.injEq _ _ ▸ hi).symm
        rw [hu] at hab
        exact absurd hab (updStable_ne_aborted hstp)
      · have hresti : rest[i - p0.length - 1]? = some u := by
          rw [hdec] at hi
          rw [← getElem?_append_cons_gt p0 st rest hgt]
          exact hi
        rcases hYget (i - p0.length - 1) u hresti with hl | ⟨-, hna, -, -, -⟩
        · rw [hchain, getElem?_append_cons_gt pre X Y (by omega), hprelen]
          exact hl
        · exact absurd hab hna
    · intro i u hi hgt
      rw [hk] at hgt
      have hresti : rest[i - p0.length - 1]? = some u := by
        rw [hdec] at hi
        rw [← getElem?_append_cons_gt p0 st rest hgt]
        exact hi
      rcases hYget (i - p0.length - 1) u hresti with hl | ⟨hr, hna, hhs', htype', hall'⟩
      · left
        rw [hchain, getElem?_append_cons_gt pre X Y (by omega), hprelen]
        exact hl
      · right
        refine ⟨?_, hna, ?_, st, hstk, htype', hhs'⟩
        · rw [hchain, getElem?_append_cons_gt pre X Y (by omega), hprelen]
          exact hr
        · intro j v hj hjgt hji
          rw [hk] at hjgt
          have hrestj : rest[j - p0.length - 1]? = some v := by
            rw [hdec] at hj
            rw [← getElem?_append_cons_gt p0 st rest hjgt]
            exact hj
          exact hall' (j - p0.length - 1) v hrestj (by omega)
    · intro u hu
      have hu' : u = st := by
        rw [hstk] at hu
        exact (Option.some.injEq _ _ ▸ hu).symm
      rw [hu']
      rcases hX with hX1 | ⟨hX1, hhs'⟩
      · left
        rw [← hX1]
        exact houtk
      · right
        refine ⟨?_, hhs'⟩
        rw [← hX1]
        exact houtk

/-- The history store produced by `__rollback_abort_update`, by case on the
stable update's HS flag, kind and (for a tombstone) the presence of a
non-aborted successor. -/
theorem abortUpdate_hs_shape (ts : Nat) (chain : List Update) (hs : List HsDelEntry)
    (pre : List Update) (st : Update) (rest : List Update)
    (habs : abortScan ts chain = (pre, some (st, rest))) :
    (st.flags.hs = true → st.type = UpdateType.tombstone →
      ∀ v, findFirstNonAborted rest = some v →
        (rollbackAbortUpdate ts chain hs).hs = rollbackDeleteHs v.start_ts hs) ∧
    (st.flags.hs = true → st.type = UpdateType.tombstone →
      findFirstNonAborted rest = none →
      (rollbackAbortUpdate ts chain hs).hs = rollbackDeleteHs st.start_ts hs) ∧
    (st.flags.hs = true → ¬st.type = UpdateType.tombstone →
      (rollbackAbortUpdate ts chain hs).hs = rollbackDeleteHs st.start_ts hs) ∧
    (st.flags.hs = false → (rollbackAbortUpdate ts chain hs).hs = hs) := by
  refine ⟨?_, ?_, ?_, ?_⟩
  · intro hhs htype v hf
    simp only [rollbackAbortUpdate, habs]
    rw [if_pos hhs, if_pos htype, hf]
  · intro hhs htype hf
    simp only [rollbackAbortUpdate, habs]
    rw [if_pos hhs, if_pos htype, hf]
  · intro hhs htype
    simp only [rollbackAbortUpdate, habs]
    rw [if_pos hhs, if_neg htype]
  · intro hhs
    simp only [rollbackAbortUpdate, habs]
    rw [if_neg (by rw [hhs]; exact Bool.false_ne_true)]

theorem hsFilter_mem (hs R : List HsDelEntry) (anchor : Nat)
    (hfe : R = hs.filter (fun e => decide (e.start_ts < anchor))) :
    (∀ e ∈ hs, e.start_ts < anchor → e ∈ R) ∧
    (∀ e ∈ hs, anchor ≤ e.start_ts → e ∉ R) := by
  constructor
  · intro e he hlt
    rw [hfe]
    exact List.mem_filter.mpr ⟨he, decide_eq_true hlt⟩
  · intro e _ hge hmem
    rw [hfe] at hmem
    have := List.of_mem_filter hmem
    rw [decide_eq_true_eq] at this
    omega

/-- C4.  When `__rollback_abort_update` keeps a stable update carrying the HS
flag, the history-store entries deleted for the key are exactly those with
`start_ts ≥ anchor_ts` (the surviving store is the filter below the anchor,
assuming the store is iterated in the cursor's descending order), where the
anchor is the start timestamp of the first non-aborted update behind a stable
tombstone when the stable update is a tombstone with a non-aborted successor,
else the tombstone's own start timestamp, else the stable update's start
timestamp; and no history-store deletion happens at all when no stable update
was found or the stable update does not carry the HS flag. -/
theorem rts_c4_hs_delete (ts : Nat) (chain : List Update) (hs : List HsDelEntry)
    (hsort : hs.Pairwise (fun a b => b.start_ts ≤ a.start_ts)) :
    (∀ (pre : List Update) (st : Update) (rest : List Update),
      abortScan ts chain = (pre, some (st, rest)) → st.flags.hs = true →
      ∃ anchorTs : Nat,
        ((st.type = UpdateType.tombstone ∧
          ∃ i : Nat, ∃ v, rest[i]? = some v ∧ v.txnid ≠ WT_TXN_ABORTED ∧
            (∀ j : Nat, ∀ w, rest[j]? = some w → j < i → w.txnid = WT_TXN_ABORTED) ∧
            anchorTs = v.start_ts) ∨
         (st.type = UpdateType.tombstone ∧ (∀ v ∈ rest, v.txnid = WT_TXN_ABORTED) ∧
            anchorTs = st.start_ts) ∨
         (st.type ≠ UpdateType.tombstone ∧ anchorTs = st.start_ts)) ∧
        (rollbackAbortUpdate ts chain hs).hs =
          hs.filter (fun e => decide (e.start_ts < anchorTs)) ∧
        (∀ e ∈ hs, e.start_ts < anchorTs → e ∈ (rollbackAbortUpdate ts chain hs).hs) ∧
        (∀ e ∈ hs, anchorTs ≤ e.start_ts → e ∉ (rollbackAbortUpdate ts chain hs).hs)) ∧
    (∀ (pre : List Update) (st : Update) (rest : List Update),
      abortScan ts chain = (pre, some (st, rest)) → st.flags.hs = false →
      (rollbackAbortUpdate ts chain hs).hs = hs) ∧
    (∀ pre : List Update, abortScan ts chain = (pre, none) →
      (rollbackAbortUpdate ts chain hs).hs = hs) := by
  refine ⟨?_, ?_, ?_⟩
  · intro pre st rest habs hhs
    obtain ⟨hshape1, hshape2, hshape3, -⟩ :=
      abortUpdate_hs_shape ts chain hs pre st rest habs
    by_cases htype : st.type = UpdateType.tombstone
    · cases hf : findFirstNonAborted rest with
      | some v =>
        obtain ⟨i, hiv, hna, hall⟩ := findFirstNonAborted_some rest v hf
        have hfe : (rollbackAbortUpdate ts chain hs).hs =
            hs.filter (fun e => decide (e.start_ts < v.start_ts)) :=
          (hshape1 hhs htype v hf).trans (rollbackDeleteHs_sorted v.start_ts hs hsort)
        obtain ⟨hm1, hm2⟩ := hsFilter_mem hs _ v.start_ts hfe
        exact ⟨v.start_ts, Or.inl ⟨htype, i, v, hiv, hna, hall, rfl⟩, hfe, hm1, hm2⟩
      | none =>
        have hall := findFirstNonAborted_none rest hf
        have hfe : (rollbackAbortUpdate ts chain hs).hs =
            hs.filter (fun e => decide (e.start_ts < st.start_ts)) :=
          (hshape2 hhs htype hf).trans (rollbackDeleteHs_sorted st.start_ts hs hsort)
        obtain ⟨hm1, hm2⟩ := hsFilter_mem hs _ st.start_ts hfe
        exact ⟨st.start_ts, Or.inr (Or.inl ⟨htype, hall, rfl⟩), hfe, hm1, hm2⟩
    · have hfe : (rollbackAbortUpdate ts chain hs).hs =
          hs.filter (fun e => decide (e.start_ts < st.start_ts)) :=
        (hshape3 hhs htype).trans (rollbackDeleteHs_sorted st.start_ts hs hsort)
      obtain ⟨hm1, hm2⟩ := hsFilter_mem hs _ st.start_ts hfe
      exact ⟨st.start_ts, Or.inr (Or.inr ⟨htype, rfl⟩), hfe, hm1, hm2⟩
  · intro pre st rest habs hhs
    exact (abortUpdate_hs_shape ts chain hs pre st rest habs).2.2.2 hhs
  · intro pre habs
    simp only [rollbackAbortUpdate, habs]

/-- Witness for C4: the stable update is a non-tombstone STANDARD update with
the HS flag and start timestamp 90; exactly the history-store entries at or
above 90 are deleted, the entry at 50 survives. -/
theorem rts_c4_witness :
    (rollbackAbortUpdate 100
      [Update.mk UpdateType.standard 3 7 150 150 PrepareState.init
        (UpdateFlags.mk false false false),
       Update.mk UpdateType.standard 2 5 90 90 PrepareState.init
        (UpdateFlags.mk true false false)]
      [HsDelEntry.mk 95 0, HsDelEntry.mk 90 1, HsDelEntry.mk 50 0]).hs =
      [HsDelEntry.mk 50 0] := by
  obtain ⟨h1, -, -⟩ := rts_c4_hs_delete 100
    [Update.mk UpdateType.standard 3 7 150 150 PrepareState.init
      (UpdateFlags.mk false false false),
     Update.mk UpdateType.standard 2 5 90 90 PrepareState.init
      (UpdateFlags.mk true false false)]
    [HsDelEntry.mk 95 0, HsDelEntry.mk 90 1, HsDelEntry.mk 50 0]
    (by decide)
  obtain ⟨anchor, hsel, hfe, -, -⟩ := h1
    [abortUpd (Update.mk UpdateType.standard 3 7 150 150 PrepareState.init
      (UpdateFlags.mk false false false))]
    (Update.mk UpdateType.standard 2 5 90 90 PrepareState.init
      (UpdateFlags.mk true false false)) [] (by decide) rfl
  have hanchor : anchor = 90 := by
    rcases hsel with ⟨habs', -⟩ | ⟨habs', -⟩ | ⟨-, ha⟩
    · cases habs'
    · cases habs'
    · exact ha
  rw [hfe, hanchor]
  rfl

/-- Witness for C10: with the chain of `rts_c1_witness`, the length is kept,
the unstable head at index 0 is exactly `abortUpd` of itself (flags, the HS
flag included, untouched), and the stable update at index 1 keeps its fields
with at most the HS flag cleared. -/
theorem rts_c10_witness :
    (rollbackAbortUpdate 100
      [Update.mk UpdateType.standard 3 7 150 150 PrepareState.init
        (UpdateFlags.mk false false false),
       Update.mk UpdateType.standard 2 5 90 90 PrepareState.init
        (UpdateFlags.mk true false false)]
      [HsDelEntry.mk 95 0, HsDelEntry.mk 90 1, HsDelEntry.mk 50 0]).chain.length = 2 ∧
    (rollbackAbortUpdate 100
      [Update.mk UpdateType.standard 3 7 150 150 PrepareState.init
        (UpdateFlags.mk false false false),
       Update.mk UpdateType.standard 2 5 90 90 PrepareState.init
        (UpdateFlags.mk true false false)]
      [HsDelEntry.mk 95 0, HsDelEntry.mk 90 1, HsDelEntry.mk 50 0]).chain[0]? =
      some (abortUpd (Update.mk UpdateType.standard 3 7 150 150 PrepareState.init
        (UpdateFlags.mk false false false))) ∧
    ((rollbackAbortUpdate 100
      [Update.mk UpdateType.standard 3 7 150 150 PrepareState.init
        (UpdateFlags.mk false false false),
       Update.mk UpdateType.standard 2 5 90 90 PrepareState.init
        (UpdateFlags.mk true false false)]
      [HsDelEntry.mk 95 0, HsDelEntry.mk 90 1, HsDelEntry.mk 50 0]).chain[1]? =
      some (Update.mk UpdateType.standard 2 5 90 90 PrepareState.init
        (UpdateFlags.mk true false false)) ∨
     ((rollbackAbortUpdate 100
      [Update.mk UpdateType.standard 3 7 150 150 PrepareState.init
        (UpdateFlags.mk false false false),
       Update.mk UpdateType.standard 2 5 90 90 PrepareState.init
        (UpdateFlags.mk true false false)]
      [HsDelEntry.mk 95 0, HsDelEntry.mk 90 1, HsDelEntry.mk 50 0]).chain[1]? =
      some (clearHS (Update.mk UpdateType.standard 2 5 90 90 PrepareState.init
        (UpdateFlags.mk true false false))) ∧
      (Update.mk UpdateType.standard 2 5 90 90 PrepareState.init
        (UpdateFlags.mk true false false)).flags.hs = true)) := by
  obtain ⟨h1, -, hpre, -, -, h5⟩ := rts_c10_abort_frame 100
    [Update.mk UpdateType.standard 3 7 150 150 PrepareState.init
      (UpdateFlags.mk false false false),
     Update.mk UpdateType.standard 2 5 90 90 PrepareState.init
      (UpdateFlags.mk true false false)]
    [HsDelEntry.mk 95 0, HsDelEntry.mk 90 1, HsDelEntry.mk 50 0]
  refine ⟨by simpa using h1, ?_, ?_⟩
  · exact (hpre 0 (Update.mk UpdateType.standard 3 7 150 150 PrepareState.init
      (UpdateFlags.mk false false false)) (by decide) (by decide)).2 (by decide)
  · have hfi : (([Update.mk UpdateType.standard 3 7 150 150 PrepareState.init
        (UpdateFlags.mk false false false),
       Update.mk UpdateType.standard 2 5 90 90 PrepareState.init
        (UpdateFlags.mk true false false)] : List Update).findIdx (updStable 100)) = 1 := by
      decide
    rw [hfi] at h5
    exact h5 (Update.mk UpdateType.standard 2 5 90 90 PrepareState.init
      (UpdateFlags.mk true false false)) (by decide)

end RTS
